import Mathlib

/-!
Verification of the BESTERP GPS ingestion and normalization pipeline.

This file shallowly embeds the GPS subsystem of the repository:
`src/services/gpsbuddyClient.js` (telemetry client and normalization),
`src/models/gpsModel.js` (last-known-state plus history persistence),
`src/controllers/gpsController.js` (daily deltas, drive/stop segmentation),
and `src/jobs/gpsRefreshJob.js` (speed-violation alerts with debounce).

JavaScript numbers are modelled by `JNum` (a rational, infinity, or NaN);
JavaScript primitive values by `JSVal`.  ISO-8601 timestamps are kept as
strings ordered lexicographically, matching SQLite TEXT comparison of the
canonical fixed-width UTC format produced by `Date.prototype.toISOString`.
-/

namespace Bgps

/-! ## JavaScript numbers -/

/-- A JavaScript number: a finite (rational) value, a signed infinity, or NaN.
JavaScript doubles that occur in this pipeline are decimal-parsed values, so a
rational carrier is faithful for them. -/
inductive JNum where
  | fin (q : Rat)
  | inf (pos : Bool)
  | nan
deriving DecidableEq

/-- `Number.isFinite`. -/
def JNum.isFinite : JNum → Bool
  | .fin _ => true
  | _ => false

/-- JavaScript truthiness of a number: `0`, `-0` and `NaN` are falsy. -/
def JNum.truthy : JNum → Bool
  | .fin q => decide (q ≠ 0)
  | .inf _ => true
  | .nan => false

/-- `Math.round`: half-up rounding (towards positive infinity at `.5`). -/
def jsRound : JNum → JNum
  | .fin q => .fin ((⌊q + 1/2⌋ : Int) : Rat)
  | .inf p => .inf p
  | .nan => .nan

/-- `Math.max(0, x)` (NaN propagates, as in JavaScript). -/
def jsMax0 : JNum → JNum
  | .fin q => .fin (max 0 q)
  | .inf p => if p then .inf true else .fin 0
  | .nan => .nan

/-- JavaScript subtraction `a - b`. -/
def jsSub : JNum → JNum → JNum
  | .fin a, .fin b => .fin (a - b)
  | .fin _, .inf p => .inf (!p)
  | .inf p, .fin _ => .inf p
  | .inf p, .inf q => if p = q then .nan else .inf p
  | .nan, _ => .nan
  | _, .nan => .nan

/-- JavaScript comparison `n >= bound` against a finite bound (`NaN` compares false). -/
def jsGeR (n : JNum) (bound : Rat) : Bool :=
  match n with
  | .fin q => decide (bound ≤ q)
  | .inf p => p
  | .nan => false

/-- JavaScript comparison `a > b` (`NaN` compares false). -/
def jsGtNum : JNum → JNum → Bool
  | .fin a, .fin b => decide (b < a)
  | .fin _, .inf p => !p
  | .inf p, .fin _ => p
  | .inf p, .inf q => p && !q
  | .nan, _ => false
  | _, .nan => false

/-! ## JavaScript whitespace, trimming and `Number(string)` -/

/-- Whitespace as recognized by `String.prototype.trim` and `\s` (common subset). -/
def isWsChar (c : Char) : Bool :=
  c = ' ' || c = '\t' || c = '\n' || c = '\r'

/-- Trim leading and trailing whitespace from a character list. -/
def trimChars (cs : List Char) : List Char :=
  ((cs.dropWhile isWsChar).reverse.dropWhile isWsChar).reverse

/-- `String.prototype.trim`. -/
def jsTrim (s : String) : String :=
  String.mk (trimChars s.toList)

/-- Decimal digit test. -/
def isDigitChar (c : Char) : Bool :=
  '0' ≤ c && c ≤ '9'

/-- Numeric value of a run of decimal digits. -/
def digitsToNat (cs : List Char) : Nat :=
  cs.foldl (fun a c => a * 10 + (c.toNat - 48)) 0

/-- Parse an unsigned decimal mantissa `digits [. digits]`; returns the value
and the unconsumed rest, or `none` if no digits are present at all. -/
def parseMantissa (cs : List Char) : Option (Rat × List Char) :=
  let ip := cs.takeWhile isDigitChar
  let r1 := cs.dropWhile isDigitChar
  match r1 with
  | '.' :: r2 =>
    let fp := r2.takeWhile isDigitChar
    let r3 := r2.dropWhile isDigitChar
    if ip.isEmpty && fp.isEmpty then none
    else some ((digitsToNat ip : Rat) + (digitsToNat fp : Rat) / ((10 : Rat) ^ fp.length), r3)
  | _ => if ip.isEmpty then none else some ((digitsToNat ip : Rat), r1)

/-- Parse an optional exponent part `e[sign]digits`; requires full consumption. -/
def parseExponent (cs : List Char) : Option Int :=
  match cs with
  | [] => some 0
  | e :: r =>
    if e = 'e' || e = 'E' then
      let (sgn, r2) : Int × List Char :=
        match r with
        | '+' :: r3 => (1, r3)
        | '-' :: r3 => (-1, r3)
        | _ => (1, r)
      let ds := r2.takeWhile isDigitChar
      if ds.isEmpty || !(r2.dropWhile isDigitChar).isEmpty then none
      else some (sgn * (digitsToNat ds : Int))
    else none

/-- Parse an unsigned numeric literal (mantissa with optional exponent),
requiring the whole input to be consumed. -/
def parseMagnitude (cs : List Char) : Option Rat :=
  match parseMantissa cs with
  | none => none
  | some (m, rest) =>
    match parseExponent rest with
    | none => none
    | some e => some (m * (10 : Rat) ^ e)

/-- `Number(string)` coercion: trimmed-empty is `0`, decimal literals (with
optional sign, fraction and exponent) and `Infinity` forms parse, anything
else is `NaN`.  (Hex/octal/binary literal forms do not occur in this
pipeline's payloads and are not modelled.) -/
def jsStringToNumber (s : String) : JNum :=
  let cs := trimChars s.toList
  match cs with
  | [] => .fin 0
  | _ =>
    let (neg, body) : Bool × List Char :=
      match cs with
      | '+' :: r => (false, r)
      | '-' :: r => (true, r)
      | _ => (false, cs)
    if body = ['I','n','f','i','n','i','t','y'] then .inf (!neg)
    else
      match parseMagnitude body with
      | some q => .fin (if neg then -q else q)
      | none => .nan

/-! ## JavaScript primitive values -/

/-- A JavaScript primitive value as it occurs in upstream payload fields. -/
inductive JSVal where
  | null
  | str (s : String)
  | num (n : JNum)
  | bool (b : Bool)
deriving DecidableEq

/-- JavaScript truthiness. -/
def JSVal.truthy : JSVal → Bool
  | .null => false
  | .str s => decide (s ≠ "")
  | .num n => n.truthy
  | .bool b => b

/-- `Number(value)` coercion for primitives. -/
def toNumber : JSVal → JNum
  | .null => .fin 0
  | .str s => jsStringToNumber s
  | .num n => n
  | .bool b => if b then .fin 1 else .fin 0

/-- Decimal digits of the fractional part of a rational in `[0, 1)`, with fuel. -/
def fracDigits : Nat → Rat → List Char
  | 0, _ => []
  | fuel + 1, q =>
    if q = 0 then []
    else
      let q10 := q * 10
      let d := ⌊q10⌋
      Char.ofNat (48 + d.toNat) :: fracDigits fuel (q10 - (d : Rat))

/-- Rendering of a JavaScript number as a string (exact for decimal-representable
values, which are the only ones this pipeline produces). -/
def jsNumToString (n : JNum) : String :=
  match n with
  | .nan => "NaN"
  | .inf p => if p then "Infinity" else "-Infinity"
  | .fin q =>
    let sign := if q < 0 then "-" else ""
    let a := |q|
    let ip := ⌊a⌋.toNat
    let fp := a - (ip : Rat)
    if fp = 0 then sign ++ toString ip
    else sign ++ toString ip ++ "." ++ String.mk (fracDigits 20 fp)

/-- `String(value)` coercion for primitives. -/
def jsToString : JSVal → String
  | .null => "null"
  | .str s => s
  | .num n => jsNumToString n
  | .bool b => if b then "true" else "false"

/-- The JavaScript `a || b` idiom on primitives. -/
def jsOr (a b : JSVal) : JSVal :=
  if a.truthy then a else b

/-! ## Dates (`Date` construction, `toISOString`, ISO parsing)

Timestamps are epoch milliseconds; `toISOString` renders the canonical
fixed-width UTC ISO-8601 form.  The civil-calendar conversion follows the
standard era-based algorithm used by the proleptic Gregorian calendar. -/

/-- Truncate a rational towards zero (how `Date` clips a fractional time value). -/
def ratTrunc (q : Rat) : Int :=
  if 0 ≤ q then ⌊q⌋ else ⌈q⌉

/-- Convert days since the Unix epoch to a civil date `(year, month, day)`. -/
def civilFromDays (z0 : Int) : Int × Nat × Nat :=
  let z := z0 + 719468
  let era := (if 0 ≤ z then z else z - 146096) / 146097
  let doe := (z - era * 146097).toNat
  let yoe := (doe - doe / 1460 + doe / 36524 - doe / 146096) / 365
  let y := (yoe : Int) + era * 400
  let doy := doe - (365 * yoe + yoe / 4 - yoe / 100)
  let mp := (5 * doy + 2) / 153
  let d := doy - (153 * mp + 2) / 5 + 1
  let m := if mp < 10 then mp + 3 else mp - 9
  ((if m ≤ 2 then y + 1 else y), m, d)

/-- Convert a civil date to days since the Unix epoch. -/
def daysFromCivil (y : Int) (m d : Nat) : Int :=
  let y1 := if m ≤ 2 then y - 1 else y
  let era := (if 0 ≤ y1 then y1 else y1 - 399) / 400
  let yoe := (y1 - era * 400).toNat
  let mp := if 10 ≤ m then m - 10 else m + 2
  let doy := (153 * mp + 2) / 5 + d - 1
  let doe := yoe * 365 + yoe / 4 - yoe / 100 + doy
  era * 146097 + (doe : Int) - 719468

/-- Left-pad a natural number with zeroes to the given width. -/
def padNum (width n : Nat) : String :=
  let s := toString n
  if s.length < width then String.mk (List.replicate (width - s.length) '0') ++ s else s

/-- `new Date(ms).toISOString()` for an in-range time value. -/
def isoOfMillis (ms : Int) : String :=
  let day := ms / 86400000 - (if ms % 86400000 < 0 then 1 else 0)
  let rem := (ms - day * 86400000).toNat
  let (y, mo, d) := civilFromDays day
  let hh := rem / 3600000
  let mi := rem % 3600000 / 60000
  let ss := rem % 60000 / 1000
  let mil := rem % 1000
  padNum 4 y.toNat ++ "-" ++ padNum 2 mo ++ "-" ++ padNum 2 d ++ "T" ++
    padNum 2 hh ++ ":" ++ padNum 2 mi ++ ":" ++ padNum 2 ss ++ "." ++ padNum 3 mil ++ "Z"

/-- Read exactly `n` decimal digits; return their value and the rest. -/
def readDigits (n : Nat) (cs : List Char) : Option (Nat × List Char) :=
  let ds := cs.take n
  if ds.length = n && ds.all isDigitChar then some (digitsToNat ds, cs.drop n) else none

/-- Generic `new Date(string)` parsing, modelled for the ISO-8601 forms the
engine accepts deterministically: `YYYY-MM-DD` (UTC midnight) and
`YYYY-MM-DDTHH:MM:SS[.mmm]Z`.  Other strings give an invalid date. -/
def jsDateParseMillis (s : String) : Option Int :=
  match readDigits 4 s.toList with
  | none => none
  | some (y, r1) =>
    match r1 with
    | '-' :: r2 =>
      match readDigits 2 r2 with
      | none => none
      | some (mo, r3) =>
        match r3 with
        | '-' :: r4 =>
          match readDigits 2 r4 with
          | none => none
          | some (d, r5) =>
            let dayMs := daysFromCivil (y : Int) mo d * 86400000
            match r5 with
            | [] => some dayMs
            | 'T' :: r6 =>
              match readDigits 2 r6 with
              | none => none
              | some (hh, r7) =>
                match r7 with
                | ':' :: r8 =>
                  match readDigits 2 r8 with
                  | none => none
                  | some (mi, r9) =>
                    match r9 with
                    | ':' :: r10 =>
                      match readDigits 2 r10 with
                      | none => none
                      | some (ss, r11) =>
                        let base := dayMs + (hh * 3600000 + mi * 60000 + ss * 1000 : Nat)
                        match r11 with
                        | ['Z'] => some base
                        | '.' :: r12 =>
                          match readDigits 3 r12 with
                          | some (mil, ['Z']) => some (base + (mil : Int))
                          | _ => none
                        | _ => none
                    | _ => none
                | _ => none
            | _ => none
        | _ => none
    | _ => none

/-! ## Telemetry client (`src/services/gpsbuddyClient.js`) -/

/-- Try to match `\/Date\((\d+)\)\/` at the head of the character list. -/
def matchDateAt (cs : List Char) : Option Nat :=
  match cs with
  | '/' :: 'D' :: 'a' :: 't' :: 'e' :: '(' :: r =>
    let ds := r.takeWhile isDigitChar
    if ds.isEmpty then none
    else
      match r.dropWhile isDigitChar with
      | ')' :: '/' :: _ => some (digitsToNat ds)
      | _ => none
  | _ => none

/-- Find the first `\/Date\((\d+)\)\/` match anywhere in the string. -/
def findDateMillis : List Char → Option Nat
  | [] => none
  | c :: rest =>
    match matchDateAt (c :: rest) with
    | some n => some n
    | none => findDateMillis rest

/-- `parseGpsBuddyDate`: detect the proprietary `\/Date(<millis>)\/` encoding,
fall back to generic date parsing, and return `none` if unparseable.  Falsy
inputs (null, empty string, 0, NaN) return `none` up front. -/
def parseGpsBuddyDate (v : JSVal) : Option String :=
  if !v.truthy then none
  else
    match v with
    | .str s =>
      match findDateMillis s.toList with
      | some ms => some (isoOfMillis (ms : Int))
      | none =>
        match jsDateParseMillis s with
        | some ms => some (isoOfMillis ms)
        | none => none
    | .num n =>
      match n with
      | .fin q => some (isoOfMillis (ratTrunc q))
      | _ => none
    | _ => none

/-- A raw upstream vehicle row: the fields `normalizeVehicle` reads, each a
JavaScript primitive (absent fields are `null`). -/
structure RawRow where
  vehicleid : JSVal := .null
  vehiclename : JSVal := .null
  plate : JSVal := .null
  drivername : JSVal := .null
  latitude : JSVal := .null
  longitude : JSVal := .null
  velocity : JSVal := .null
  address : JSVal := .null
  location : JSVal := .null
  direction : JSVal := .null
  time_indicator : JSVal := .null
  drivetime : JSVal := .null
  worktime : JSVal := .null
  idletime : JSVal := .null
  stoptime : JSVal := .null
  totaldistance : JSVal := .null
  start_km : JSVal := .null
  flags : JSVal := .null
  communication : JSVal := .null
  colorcode : JSVal := .null
deriving DecidableEq

/-- The canonical normalized vehicle record produced by `normalizeVehicle`. -/
structure NormVehicle where
  vehicleid : Option JNum
  plate : Option String
  drivername : Option String
  latitude : Option JNum
  longitude : Option JNum
  velocity : Option JNum
  address : Option String
  location : Option String
  direction : Option JNum
  time_indicator : Option String
  drivetime : Option JNum
  worktime : Option JNum
  idletime : Option JNum
  stoptime : Option JNum
  totaldistance : Option JNum
  start_km : Option JNum
  flags : Option JNum
  communication : Option Bool
  colorcode : Option String
deriving DecidableEq

/-- `String(v).trim() || null` applied to a non-null field. -/
def strTrimOrNull (v : JSVal) : Option String :=
  let t := jsTrim (jsToString v)
  if t = "" then none else some t

/-- `normalizeVehicle`: field-by-field mapping of a raw row into the canonical
record (`src/services/gpsbuddyClient.js` lines 32-60). -/
def normalizeVehicle (row : RawRow) : NormVehicle :=
  let plate := jsTrim (jsToString (jsOr row.vehiclename (jsOr row.plate (.str ""))))
  let timeIndicatorIso := parseGpsBuddyDate row.time_indicator
  let velocity : Option JNum :=
    if row.velocity = .null || row.velocity = .str "" then none
    else some (jsRound (toNumber row.velocity))
  { vehicleid := if row.vehicleid = .null then none else some (toNumber row.vehicleid)
    plate := if plate = "" then none else some plate
    drivername := if row.drivername = .null then none else strTrimOrNull row.drivername
    latitude := if row.latitude = .null then none else some (toNumber row.latitude)
    longitude := if row.longitude = .null then none else some (toNumber row.longitude)
    velocity :=
      match velocity with
      | some n => if n.isFinite then some n else none
      | none => none
    address := if row.address = .null then none else strTrimOrNull row.address
    location := if row.location = .null then none else strTrimOrNull row.location
    direction := if row.direction = .null then none else some (toNumber row.direction)
    time_indicator := timeIndicatorIso
    drivetime := if row.drivetime = .null then none else some (toNumber row.drivetime)
    worktime := if row.worktime = .null then none else some (toNumber row.worktime)
    idletime := if row.idletime = .null then none else some (toNumber row.idletime)
    stoptime := if row.stoptime = .null then none else some (toNumber row.stoptime)
    totaldistance := if row.totaldistance = .null then none else some (toNumber row.totaldistance)
    start_km := if row.start_km = .null then none else some (toNumber row.start_km)
    flags := if row.flags = .null then none else some (toNumber row.flags)
    communication := if row.communication = .null then none else some row.communication.truthy
    colorcode := if row.colorcode = .null then none else strTrimOrNull row.colorcode }

/-! ## InitializeSession response summary (`summarizeInitializeSessionResponse`) -/

/-- The InitializeSession response data as the summarizer sees it. -/
inductive RespData where
  | nullv
  | str (s : String)
  | obj (keys : List String)
  | num (n : JNum)
  | bool (b : Bool)
deriving DecidableEq

/-- The regex replacement `.replace(/\s+/g, ' ')`: collapse each run of
whitespace into a single space.  The boolean tracks whether the previous
character was part of a whitespace run. -/
def collapseWsGo : Bool → List Char → List Char
  | _, [] => []
  | prevWs, c :: rest =>
    if isWsChar c then
      if prevWs then collapseWsGo true rest
      else ' ' :: collapseWsGo true rest
    else c :: collapseWsGo false rest

/-- `s.replace(/\s+/g, ' ')`. -/
def collapseWs (cs : List Char) : List Char :=
  collapseWsGo false cs

/-- The string branch of `summarizeInitializeSessionResponse`: collapse
whitespace, trim, and truncate to 240 characters plus an ellipsis. -/
def summarizeStrChars (cs : List Char) : List Char :=
  let s := trimChars (collapseWs cs)
  if 240 < s.length then s.take 240 ++ ['…'] else s

/-- `summarizeInitializeSessionResponse` (`src/services/gpsbuddyClient.js`
lines 167-183). -/
def summarizeInitializeSessionResponse : RespData → String
  | .nullv => "null"
  | .str s => String.mk (summarizeStrChars s.toList)
  | .obj keys =>
    "object keys=[" ++ String.intercalate ", " (keys.take 12) ++
      (if 12 < keys.length then ", …" else "") ++ "]"
  | .num n => jsNumToString n
  | .bool b => if b then "true" else "false"

/-- The error message `ensureToken` throws when no token can be extracted
(`src/services/gpsbuddyClient.js` lines 226-229). -/
def mkTokenErrorMessage (d : RespData) : String :=
  "GPSBuddy token alınamadı (InitializeSession response parse edilemedi). Response: " ++
    summarizeInitializeSessionResponse d

/-! ## Live-vehicle fetch (`extractVehicleArray`, `fetchLiveVehicles`) -/

/-- The value found under a top-level payload key: either an array of raw
vehicle rows, or some other value (whose JavaScript truthiness is recorded —
note a JavaScript array is always truthy, even when empty). -/
inductive JVal where
  | arr (rows : List RawRow)
  | other (truthy : Bool)
deriving DecidableEq

/-- Truthiness of a payload field value. -/
def JVal.truthy : JVal → Bool
  | .arr _ => true
  | .other t => t

/-- An API-level error object carried in a payload. -/
structure ApiError where
  message : Option String
  code : Option String
deriving DecidableEq

/-- A parsed response payload: the optional API error object and the known
top-level keys `extractVehicleArray` probes. -/
structure Payload where
  error : Option ApiError := none
  help_ws_gpsb_unitvehicle_filter : Option JVal := none
  gpsb_unitvehicle_filter_by_group : Option JVal := none
  gpsb_unitvehicle_filter : Option JVal := none
  unitvehicle_filter : Option JVal := none
  data : Option JVal := none
deriving DecidableEq

/-- The JavaScript `||` chain over an optional payload field (absent or falsy
falls through). -/
def fieldOr (f : Option JVal) (alt : JVal) : JVal :=
  match f with
  | some v => if v.truthy then v else alt
  | none => alt

/-- `extractVehicleArray` (`src/services/gpsbuddyClient.js` lines 62-73): first
truthy value among the known keys, defaulting to the empty array literal.
A `none` payload (falsy response) short-circuits to the empty array. -/
def extractVehicleArray (payload : Option Payload) : JVal :=
  match payload with
  | none => .arr []
  | some p =>
    fieldOr p.help_ws_gpsb_unitvehicle_filter
      (fieldOr p.gpsb_unitvehicle_filter_by_group
        (fieldOr p.gpsb_unitvehicle_filter
          (fieldOr p.unitvehicle_filter
            (fieldOr p.data (.arr [])))))

/-- Truthiness of an optional numeric field (`null` is falsy). -/
def optNumTruthy : Option JNum → Bool
  | none => false
  | some n => n.truthy

/-- The vehicle list produced from a successful payload: `Array.isArray`
guard, `normalizeVehicle` map, then the `v.vehicleid` truthiness filter
(`src/services/gpsbuddyClient.js` lines 380-381). -/
def vehiclesOfPayload (payload : Option Payload) : List NormVehicle :=
  let arr :=
    match extractVehicleArray payload with
    | .arr rows => rows
    | .other _ => []
  (arr.map normalizeVehicle).filter (fun v => optNumTruthy v.vehicleid)

/-- A deterministic rendering of `JSON.stringify` on an API error object. -/
def stringifyApiError (e : ApiError) : String :=
  let fields :=
    (match e.message with
     | some m => ["\"message\":\"" ++ m ++ "\""]
     | none => []) ++
    (match e.code with
     | some c => ["\"code\":\"" ++ c ++ "\""]
     | none => [])
  "\x7b" ++ String.intercalate "," fields ++ "\x7d"

/-- `payload.error.message || payload.error.code || JSON.stringify(payload.error)`. -/
def apiErrorText (e : ApiError) : String :=
  match e.message with
  | some m => if m ≠ "" then m else
    match e.code with
    | some c => if c ≠ "" then c else stringifyApiError e
    | none => stringifyApiError e
  | none =>
    match e.code with
    | some c => if c ≠ "" then c else stringifyApiError e
    | none => stringifyApiError e

/-- The error message recorded when a candidate function returns an API-level
error object. -/
def mkFnErrorMessage (fn : String) (e : ApiError) : String :=
  "GPSBuddy " ++ fn ++ ": " ++ apiErrorText e

/-- The candidate function-name list: the configured live endpoint first, then
the known alternates, keeping only truthy names and first occurrences
(`src/services/gpsbuddyClient.js` lines 359-364). -/
def candidateFns (liveEndpoint : Option String) : List String :=
  let items : List (Option String) :=
    [liveEndpoint, some ("gpsb_unitvehicle_filter"), some ("gpsb_unitvehicle_filter_2"),
      some ("gpsb_unitvehicle_filter_by_group")]
  items.foldl
    (fun acc v =>
      match v with
      | some s => if s ≠ "" && !(acc.contains s) then acc ++ [s] else acc
      | none => acc)
    []

/-- The result of a successful live fetch. -/
structure FetchResult where
  vehicles : List NormVehicle
  functionName : String
  fetchedAt : String
deriving DecidableEq

/-- The network side of one `executeReturnSet` call, abstracted at the claim's
interface: for a function name it either raises (HTTP-level failure after the
retry budget) or returns the parsed payload (`none` models a falsy response). -/
def FetchOracle : Type :=
  String → Except String (Option Payload)

/-- The candidate loop of `fetchLiveVehicles`: try each function name in
order, remember every failure, stop at the first success, raise the last
error when all fail (`src/services/gpsbuddyClient.js` lines 366-399). -/
def fetchGo (oracle : FetchOracle) (nowIso : String) :
    List String → Option String → Except String FetchResult
  | [], lastError => .error (lastError.getD "GPSBuddy live data alınamadı")
  | fn :: rest, _ =>
    match oracle fn with
    | .error e => fetchGo oracle nowIso rest (some e)
    | .ok payload =>
      match payload with
      | some p =>
        match p.error with
        | some err => fetchGo oracle nowIso rest (some (mkFnErrorMessage fn err))
        | none => .ok ⟨vehiclesOfPayload payload, fn, nowIso⟩
      | none => .ok ⟨vehiclesOfPayload none, fn, nowIso⟩

/-- `fetchLiveVehicles` (`src/services/gpsbuddyClient.js` lines 356-400),
with the wall clock (`meta.fetchedAt`) passed explicitly. -/
def fetchLiveVehicles (oracle : FetchOracle) (liveEndpoint : Option String)
    (nowIso : String) : Except String FetchResult :=
  fetchGo oracle nowIso (candidateFns liveEndpoint) none

/-! ## Persistence layer (`src/models/gpsModel.js`)

The SQLite schema itself lives in `src/config/db.js`, which is not part of
the sources; following the spec, `gps_vehicle_last` is keyed by `vehicleid`
(insert-or-replace) and `gps_vehicle_history` is keyed by
`(vehicleid, time_indicator)` (insert-or-ignore). -/

/-- A row of `gps_vehicle_last`. -/
structure LastRow where
  vehicleid : JNum
  plate : Option String
  drivername : Option String
  latitude : Option JNum
  longitude : Option JNum
  velocity : Option JNum
  address : Option String
  location : Option String
  direction : Option JNum
  time_indicator : Option String
  drivetime : Option JNum
  worktime : Option JNum
  idletime : Option JNum
  stoptime : Option JNum
  totaldistance : Option JNum
  start_km : Option JNum
  flags : Option JNum
  communication : Option Nat
  colorcode : Option String
  updated_at : String
deriving DecidableEq

/-- A row of `gps_vehicle_history`. -/
structure HistRow where
  vehicleid : JNum
  plate : Option String
  latitude : Option JNum
  longitude : Option JNum
  velocity : Option JNum
  time_indicator : Option String
  address : Option String
  drivetime : Option JNum
  worktime : Option JNum
  idletime : Option JNum
  stoptime : Option JNum
  totaldistance : Option JNum
  start_km : Option JNum
  created_at : String
deriving DecidableEq

/-- The database state the GPS model mutates. -/
structure Db where
  last : List LastRow
  history : List HistRow
deriving DecidableEq

/-- `coalesceText`: null stays null, otherwise trim and turn empty into null. -/
def coalesceText (v : Option String) : Option String :=
  match v with
  | none => none
  | some s =>
    let t := jsTrim s
    if t = "" then none else some t

/-- `numOrNull`: null stays null, non-finite numbers become null. -/
def numOrNull (v : Option JNum) : Option JNum :=
  match v with
  | none => none
  | some n => if n.isFinite then some n else none

/-- `boolIntOrNull`: null stays null, otherwise `1`/`0` by truthiness. -/
def boolIntOrNull (v : Option Bool) : Option Nat :=
  v.map (fun b => if b then 1 else 0)

/-- `Number(v.vehicleid)` where the field may be null (`Number(null) = 0`). -/
def numOfOpt (v : Option JNum) : JNum :=
  v.getD (.fin 0)

/-- The record built per vehicle inside `upsertLastAndHistory`
(`src/models/gpsModel.js` lines 800-822). -/
def mkLastRecord (updatedAt : String) (v : NormVehicle) : LastRow where
  vehicleid := numOfOpt v.vehicleid
  plate := coalesceText v.plate
  drivername := coalesceText v.drivername
  latitude := numOrNull v.latitude
  longitude := numOrNull v.longitude
  velocity := numOrNull v.velocity
  address := coalesceText v.address
  location := coalesceText v.location
  direction := numOrNull v.direction
  time_indicator := coalesceText v.time_indicator
  drivetime := numOrNull v.drivetime
  worktime := numOrNull v.worktime
  idletime := numOrNull v.idletime
  stoptime := numOrNull v.stoptime
  totaldistance := numOrNull v.totaldistance
  start_km := numOrNull v.start_km
  flags := numOrNull v.flags
  communication := boolIntOrNull v.communication
  colorcode := coalesceText v.colorcode
  updated_at := updatedAt

/-- The history row derived from the record when `time_indicator` is present
(`src/models/gpsModel.js` lines 828-846). -/
def histOfRecord (record : LastRow) : HistRow where
  vehicleid := record.vehicleid
  plate := record.plate
  latitude := record.latitude
  longitude := record.longitude
  velocity := record.velocity
  time_indicator := record.time_indicator
  address := record.address
  drivetime := record.drivetime
  worktime := record.worktime
  idletime := record.idletime
  stoptime := record.stoptime
  totaldistance := record.totaldistance
  start_km := record.start_km
  created_at := record.updated_at

/-- Modelled from the spec: the `gps_vehicle_last` table (schema in the absent
`src/config/db.js`) has `vehicleid` as its conflict key, so the upsert
replaces the row with the same `vehicleid` or appends a new one. -/
def upsertLastRow (rows : List LastRow) (record : LastRow) : List LastRow :=
  if rows.any (fun r => decide (r.vehicleid = record.vehicleid)) then
    rows.map (fun r => if r.vehicleid = record.vehicleid then record else r)
  else rows ++ [record]

/-- Modelled from the spec: the `gps_vehicle_history` table is keyed by
`(vehicleid, time_indicator)`, so `INSERT OR IGNORE` inserts exactly when no
row with the same key exists; the returned number is `changes`. -/
def insertOrIgnoreHistory (hist : List HistRow) (row : HistRow) : Nat × List HistRow :=
  if hist.any (fun r =>
      decide (r.vehicleid = row.vehicleid) && decide (r.time_indicator = row.time_indicator)) then
    (0, hist)
  else (1, hist ++ [row])

/-- `upsertLastAndHistory` (`src/models/gpsModel.js` lines 690-854): per
vehicle, upsert the last-known state and, only when the coalesced
`time_indicator` is truthy, insert-or-ignore a history row; returns
`(updated, historyInserted)` with the new database state.  The ingestion
timestamp `nowIso()` is passed explicitly. -/
def upsertLastAndHistory (updatedAt : String) (vehicles : List NormVehicle) (db : Db) :
    (Nat × Nat) × Db :=
  match vehicles with
  | [] => ((0, 0), db)
  | _ =>
    vehicles.foldl
      (fun (acc : (Nat × Nat) × Db) v =>
        let record := mkLastRecord updatedAt v
        let last2 := upsertLastRow acc.2.last record
        match record.time_indicator with
        | some _ =>
          let (changes, hist2) := insertOrIgnoreHistory acc.2.history (histOfRecord record)
          ((acc.1.1 + 1, acc.1.2 + changes), ⟨last2, hist2⟩)
        | none => ((acc.1.1 + 1, acc.1.2), ⟨last2, acc.2.history⟩))
      ((0, 0), db)

/-- Lexicographic three-way comparison of character lists by code point,
modelling SQLite's byte-wise TEXT comparison (UTF-8 preserves code-point
order). -/
def cmpChars : List Char → List Char → Ordering
  | [], [] => .eq
  | [], _ :: _ => .lt
  | _ :: _, [] => .gt
  | a :: as, b :: bs =>
    if a.toNat < b.toNat then .lt
    else if b.toNat < a.toNat then .gt
    else cmpChars as bs

/-- Strict TEXT comparison `a < b`. -/
def strLtB (a b : String) : Bool :=
  cmpChars a.toList b.toList = .lt

/-- TEXT comparison `a <= b`. -/
def strLeB (a b : String) : Bool :=
  !strLtB b a

/-- SQLite TEXT comparison `time_indicator >= bound` (NULL compares false). -/
def sqlGeKey (k : Option String) (bound : String) : Bool :=
  match k with
  | none => false
  | some s => strLeB bound s

/-- SQLite TEXT comparison `time_indicator <= bound` (NULL compares false). -/
def sqlLeKey (k : Option String) (bound : String) : Bool :=
  match k with
  | none => false
  | some s => strLeB s bound

/-- The `ORDER BY time_indicator ASC` key order: SQLite sorts NULL first. -/
def keyLeB : Option String → Option String → Bool
  | none, _ => true
  | some _, none => false
  | some a, some b => strLeB a b

/-- Row order for `ORDER BY time_indicator ASC`. -/
def histLe (a b : HistRow) : Prop :=
  keyLeB a.time_indicator b.time_indicator = true

/-- Row order for `ORDER BY time_indicator DESC`. -/
def histGe (a b : HistRow) : Prop :=
  keyLeB b.time_indicator a.time_indicator = true

instance : DecidableRel histLe := fun _ _ => instDecidableEqBool _ _

instance : DecidableRel histGe := fun _ _ => instDecidableEqBool _ _

/-- The WHERE clause of the ranged `getHistory` query. -/
def rangeFilterB (vid : JNum) (sinceIso untilIso : Option String) (r : HistRow) : Bool :=
  decide (r.vehicleid = vid) &&
    (match sinceIso with
     | none => true
     | some s => sqlGeKey r.time_indicator s) &&
    (match untilIso with
     | none => true
     | some u => sqlLeKey r.time_indicator u)

/-- `getHistory` (`src/models/gpsModel.js` lines 522-591): with a range
filter, `ORDER BY time_indicator ASC LIMIT ?`; without one, the most recent
`limit` rows fetched descending and then reversed.  The option values are
taken after the JavaScript `|| null` truthiness coercion. -/
def getHistory (db : Db) (vid : JNum) (sinceIso untilIso : Option String)
    (limit : Nat) : List HistRow :=
  if sinceIso.isSome || untilIso.isSome then
    ((db.history.filter (rangeFilterB vid sinceIso untilIso)).insertionSort histLe).take limit
  else
    (((db.history.filter (fun r => decide (r.vehicleid = vid))).insertionSort histGe).take
        limit).reverse

/-- Whether a history row is targeted by the retention DELETE:
`time_indicator IS NOT NULL AND time_indicator < cutoff`. -/
def rowOlderThan (cutoff : String) (r : HistRow) : Bool :=
  match r.time_indicator with
  | some t => strLtB t cutoff
  | none => false

/-- The retention cutoff `new Date(Date.now() - days * 86400000).toISOString()`. -/
def retentionCutoffIso (nowMs : Int) (days : Rat) : String :=
  isoOfMillis (ratTrunc ((nowMs : Rat) - days * 86400000))

/-- `deleteHistoryOlderThan` (`src/models/gpsModel.js` lines 856-865): no-op
returning 0 unless `Number(days)` is finite and positive; otherwise delete the
non-null-timestamped rows older than the cutoff and return `changes`. -/
def deleteHistoryOlderThan (nowMs : Int) (days : JNum) (db : Db) : Nat × Db :=
  match days with
  | .fin q =>
    if q ≤ 0 then (0, db)
    else
      let cutoff := retentionCutoffIso nowMs q
      ((db.history.filter (rowOlderThan cutoff)).length,
        ⟨db.last, db.history.filter (fun r => !rowOlderThan cutoff r)⟩)
  | _ => (0, db)

/-- The cumulative counters of a vehicle's first history row of the day. -/
structure StartVals where
  drivetime : JNum
  worktime : JNum
  idletime : JNum
  stoptime : JNum
deriving DecidableEq

/-- The `row.x || 0` coercion used when reading counters (falsy becomes 0). -/
def jsNumOrZeroOpt (v : Option JNum) : JNum :=
  match v with
  | some n => if n.truthy then n else .fin 0
  | none => .fin 0

/-- The rows of today for one vehicle (`WHERE time_indicator >= todayStart`). -/
def todayRows (db : Db) (vid : JNum) (cutoff : String) : List HistRow :=
  db.history.filter (fun r => decide (r.vehicleid = vid) && sqlGeKey r.time_indicator cutoff)

/-- `MIN(time_indicator)` over a row set (NULLs ignored, as in SQL). -/
def minKeyOf (rows : List HistRow) : Option String :=
  rows.foldl
    (fun acc r =>
      match acc, r.time_indicator with
      | none, t => t
      | some m, some t => some (if strLtB t m then t else m)
      | some m, none => some m)
    none

/-- `getTodayStartValues` (`src/models/gpsModel.js` lines 872-906): for a
vehicle, the counters of its earliest history row at or after the local
day-start instant (passed explicitly as the ISO cutoff the source computes
from the UTC+3 clock), or `none` when the vehicle has no row today. -/
def getTodayStartValues (db : Db) (cutoff : String) (vid : JNum) : Option StartVals :=
  let rows := todayRows db vid cutoff
  match minKeyOf rows with
  | none => none
  | some m =>
    match rows.find? (fun r => decide (r.time_indicator = some m)) with
    | some r =>
      some ⟨jsNumOrZeroOpt r.drivetime, jsNumOrZeroOpt r.worktime,
        jsNumOrZeroOpt r.idletime, jsNumOrZeroOpt r.stoptime⟩
    | none => none

/-! ## Daily deltas (`src/controllers/gpsController.js` lines 64-85) -/

/-- The daily counters attached to a live vehicle row. -/
structure DailyTimes where
  dailyDrivetime : JNum
  dailyWorktime : JNum
  dailyIdletime : JNum
  dailyStoptime : JNum
deriving DecidableEq

/-- The per-vehicle body of `addDailyTimesToVehicles`: with a day-start
baseline, `Math.max(0, (current || 0) - start)` per counter; otherwise the
current `(x || 0)` values. -/
def addDailyTimesToVehicle (todayStart : JNum → Option StartVals) (v : LastRow) : DailyTimes :=
  match todayStart v.vehicleid with
  | some start =>
    { dailyDrivetime := jsMax0 (jsSub (jsNumOrZeroOpt v.drivetime) start.drivetime)
      dailyWorktime := jsMax0 (jsSub (jsNumOrZeroOpt v.worktime) start.worktime)
      dailyIdletime := jsMax0 (jsSub (jsNumOrZeroOpt v.idletime) start.idletime)
      dailyStoptime := jsMax0 (jsSub (jsNumOrZeroOpt v.stoptime) start.stoptime) }
  | none =>
    { dailyDrivetime := jsNumOrZeroOpt v.drivetime
      dailyWorktime := jsNumOrZeroOpt v.worktime
      dailyIdletime := jsNumOrZeroOpt v.idletime
      dailyStoptime := jsNumOrZeroOpt v.stoptime }

/-- `addDailyTimesToVehicles`: annotate every vehicle with its daily counters
(the source mutates the row objects; the model pairs them). -/
def addDailyTimesToVehicles (todayStart : JNum → Option StartVals)
    (vehicles : List LastRow) : List (LastRow × DailyTimes) :=
  vehicles.map (fun v => (v, addDailyTimesToVehicle todayStart v))

/-! ## Drive/Stop report (`src/controllers/gpsController.js` lines 290-430)

Report rows carry their `time_indicator` as the epoch milliseconds that
`new Date(iso).getTime()` yields; the Haversine great-circle kernel
(floating-point trigonometry) is a parameter `hav` giving the distance `R*c`
in km, since the report's claimed properties are independent of it. -/

/-- A history row as consumed by the drive/stop report. -/
structure RRow where
  velocity : Option JNum
  timeMs : Nat
  address : Option String
  location : Option String
  latitude : Option JNum
  longitude : Option JNum
  totaldistance : Option JNum
deriving DecidableEq

/-- A segment classification. -/
inductive SegType where
  | drive
  | stop
deriving DecidableEq

/-- Classify one sample: `Drive` when `(velocity != null ? Number(velocity) : 0)`
is at least the stop threshold of 1 km/h, else `Stop`. -/
def classify (r : RRow) : SegType :=
  if jsGeR (r.velocity.getD (.fin 0)) 1 then .drive else .stop

/-- A drive/stop segment under construction (the fields set by the first
loop of `apiDriveStopReport`). -/
structure Segment where
  type : SegType
  startTime : Nat
  startLocation : String
  startLat : Option JNum
  startLng : Option JNum
  startKm : Option JNum
  endTime : Nat
  endLocation : String
  endLat : Option JNum
  endLng : Option JNum
  endKm : Option JNum
deriving DecidableEq

/-- `h.address || h.location || ''`. -/
def rowLocation (r : RRow) : String :=
  match r.address with
  | some a => if a ≠ "" then a else
    match r.location with
    | some l => if l ≠ "" then l else ""
    | none => ""
  | none =>
    match r.location with
    | some l => if l ≠ "" then l else ""
    | none => ""

/-- Open a new segment at a sample. -/
def newSegment (r : RRow) : Segment where
  type := classify r
  startTime := r.timeMs
  startLocation := rowLocation r
  startLat := r.latitude
  startLng := r.longitude
  startKm := r.totaldistance
  endTime := r.timeMs
  endLocation := rowLocation r
  endLat := r.latitude
  endLng := r.longitude
  endKm := r.totaldistance

/-- Extend the current segment to cover a further sample. -/
def extendSegment (seg : Segment) (r : RRow) : Segment :=
  { seg with
    endTime := r.timeMs
    endLocation := rowLocation r
    endLat := r.latitude
    endLng := r.longitude
    endKm := r.totaldistance }

/-- The run-length-encoding loop over the history rows, carrying the open
segment; the open segment is pushed at the end. -/
def segLoop (cur : Segment) : List RRow → List Segment
  | [] => [cur]
  | r :: rest =>
    if classify r = cur.type then segLoop (extendSegment cur r) rest
    else cur :: segLoop (newSegment r) rest

/-- Build the drive/stop segments of a history window. -/
def buildSegments : List RRow → List Segment
  | [] => []
  | r :: rest => segLoop (newSegment r) rest

/-- A finished segment with duration and distance attached. -/
structure SegOut where
  seg : Segment
  durationSeconds : Nat
  duration : String
  distance : Rat
deriving DecidableEq

/-- Duration formatting: `Xh Ym`, omitting the hour part when zero. -/
def fmtSegDuration (secs : Nat) : String :=
  let hours := secs / 3600
  let minutes := secs % 3600 / 60
  if 0 < hours then toString hours ++ "h " ++ toString minutes ++ "m"
  else toString minutes ++ "m"

/-- Total-duration formatting: always `Xh Ym`. -/
def fmtTotalDuration (secs : Nat) : String :=
  toString (secs / 3600) ++ "h " ++ toString (secs % 3600 / 60) ++ "m"

/-- Attach duration and distance to a segment: duration is the clamped
whole-second difference of the endpoints; distance applies the Haversine
kernel only when all four coordinates are truthy, multiplies by the 1.2
road-detour factor, rounds to 0.1 km and zeroes readings at or below the
0.1 km noise floor. -/
def finishSegment (hav : JNum → JNum → JNum → JNum → Rat) (seg : Segment) : SegOut :=
  let durationSeconds := (seg.endTime - seg.startTime) / 1000
  let distance : Rat :=
    match seg.startLat, seg.startLng, seg.endLat, seg.endLng with
    | some a, some b, some c, some d =>
      if a.truthy && b.truthy && c.truthy && d.truthy then hav a b c d * (6/5) else 0
    | _, _, _, _ => 0
  { seg := seg
    durationSeconds := durationSeconds
    duration := fmtSegDuration durationSeconds
    distance := if 1/10 < distance then ((⌊distance * 10 + 1/2⌋ : Int) : Rat) / 10 else 0 }

/-- The report summary object. -/
structure ReportSummary where
  totalDrive : JSVal
  totalDriveSeconds : Option Nat
  totalStop : JSVal
  totalStopSeconds : Option Nat
  totalDistance : Rat
deriving DecidableEq

/-- The drive/stop report response. -/
structure Report where
  segments : List SegOut
  summary : ReportSummary
deriving DecidableEq

/-- `apiDriveStopReport` (`src/controllers/gpsController.js` lines 290-430),
from the fetched history window onward: empty history short-circuits to an
empty segment list with a numerically-zeroed summary; otherwise segments are
built, finished, and totalled (drive durations and distances, stop
durations). -/
def apiDriveStopReport (hav : JNum → JNum → JNum → JNum → Rat)
    (history : List RRow) : Report :=
  match history with
  | [] =>
    { segments := []
      summary :=
        { totalDrive := .num (.fin 0), totalDriveSeconds := none,
          totalStop := .num (.fin 0), totalStopSeconds := none, totalDistance := 0 } }
  | _ =>
    let outs := (buildSegments history).map (finishSegment hav)
    let totalDriveSeconds :=
      (outs.filter (fun s => decide (s.seg.type = .drive))).foldl
        (fun a s => a + s.durationSeconds) 0
    let totalStopSeconds :=
      (outs.filter (fun s => decide (s.seg.type = .stop))).foldl
        (fun a s => a + s.durationSeconds) 0
    let totalDistance : Rat :=
      (outs.filter (fun s => decide (s.seg.type = .drive))).foldl
        (fun a s => a + s.distance) 0
    { segments := outs
      summary :=
        { totalDrive := .str (fmtTotalDuration totalDriveSeconds)
          totalDriveSeconds := some totalDriveSeconds
          totalStop := .str (fmtTotalDuration totalStopSeconds)
          totalStopSeconds := some totalStopSeconds
          totalDistance := ((⌊totalDistance * 10 + 1/2⌋ : Int) : Rat) / 10 } }

/-! ## Speed-violation alerts (`src/jobs/gpsRefreshJob.js` lines 7-145) -/

/-- Vehicles are keyed in the alert maps by their (possibly null) id value. -/
abbrev VKey := Option JNum

/-- The fixed thresholds of the job. -/
def SPEED_ALERT_COOLDOWN : Nat := 5 * 60 * 1000

/-- The rolling max-speed window. -/
def MAX_SPEED_WINDOW : Nat := 5 * 60 * 1000

/-- The speed limit in km/h. -/
def SPEED_LIMIT : Rat := 94

/-- An entry of the rolling `maxSpeedTracker` map. -/
structure MaxEntry where
  maxSpeed : JNum
  plate : String
  driver : String
  location : String
  timestamp : Nat
deriving DecidableEq

/-- The process-local alert state: the debounce map `recentSpeedAlerts` and
the rolling `maxSpeedTracker`, as functions from vehicle key to entry. -/
structure SpeedState where
  recent : VKey → Option Nat
  tracker : VKey → Option MaxEntry

/-- The empty maps at process start. -/
def initSpeedState : SpeedState :=
  ⟨fun _ => none, fun _ => none⟩

/-- A speed alert as forwarded to the notification sink (the structured
metadata payload; the locale-formatted text is derived from these fields). -/
structure Alert where
  vehicleId : VKey
  plate : String
  velocity : JNum
  maxSpeed : JNum
  driver : String
  location : String
  time : Nat
deriving DecidableEq

/-- `v || fallback` for an optional string field. -/
def jsOrStr (v : Option String) (fallback : String) : String :=
  match v with
  | some s => if s ≠ "" then s else fallback
  | none => fallback

/-- `v.address || v.location || 'Bilinmiyor'`. -/
def alertLocation (v : NormVehicle) : String :=
  jsOrStr v.address (jsOrStr v.location ("Bilinmiyor"))

/-- First pass of `checkSpeedViolations`: update the max-speed tracker for
every vehicle at or above the limit when there is no entry, the entry's
window has expired, or the new velocity is higher. -/
def trackerPass (now : Nat) (vehicles : List NormVehicle)
    (tracker : VKey → Option MaxEntry) : VKey → Option MaxEntry :=
  vehicles.foldl
    (fun tr v =>
      let velocity := v.velocity.getD (.fin 0)
      if jsGeR velocity SPEED_LIMIT then
        match tr v.vehicleid with
        | none =>
          fun k =>
            if k = v.vehicleid then
              some ⟨velocity, jsOrStr v.plate ("Bilinmiyor"), jsOrStr v.drivername ("Bilinmiyor"),
                alertLocation v, now⟩
            else tr k
        | some e =>
          if decide (MAX_SPEED_WINDOW < now - e.timestamp) || jsGtNum velocity e.maxSpeed then
            fun k =>
              if k = v.vehicleid then
                some ⟨velocity, jsOrStr v.plate ("Bilinmiyor"), jsOrStr v.drivername ("Bilinmiyor"),
                  alertLocation v, now⟩
              else tr k
          else tr
      else tr)
    tracker

/-- Second pass of `checkSpeedViolations`, one vehicle: fire an alert when at
or above the limit and outside the per-vehicle cooldown, recording the alert
time in the debounce map. -/
def alertStep (now : Nat) (tracker : VKey → Option MaxEntry)
    (st : (VKey → Option Nat) × List Alert) (v : NormVehicle) :
    (VKey → Option Nat) × List Alert :=
  let velocity := v.velocity.getD (.fin 0)
  if jsGeR velocity SPEED_LIMIT then
    let fire :=
      match st.1 v.vehicleid with
      | none => true
      | some t => decide (SPEED_ALERT_COOLDOWN < now - t)
    if fire then
      let maxSpeed :=
        match tracker v.vehicleid with
        | some e => e.maxSpeed
        | none => velocity
      ((fun k => if k = v.vehicleid then some now else st.1 k),
        st.2 ++ [⟨v.vehicleid, jsOrStr v.plate ("Bilinmiyor"), velocity, maxSpeed,
          jsOrStr v.drivername ("Bilinmiyor"), alertLocation v, now⟩])
    else st
  else st

/-- End-of-poll sweep of the debounce map: drop entries older than twice the
cooldown. -/
def sweepRecent (now : Nat) (recent : VKey → Option Nat) : VKey → Option Nat :=
  fun k =>
    match recent k with
    | some t => if 2 * SPEED_ALERT_COOLDOWN < now - t then none else some t
    | none => none

/-- End-of-poll sweep of the max-speed tracker: drop entries older than the
window. -/
def sweepTracker (now : Nat) (tracker : VKey → Option MaxEntry) : VKey → Option MaxEntry :=
  fun k =>
    match tracker k with
    | some e => if MAX_SPEED_WINDOW < now - e.timestamp then none else some e
    | none => none

/-- `checkSpeedViolations` (`src/jobs/gpsRefreshJob.js` lines 44-145) at one
poll instant: tracker pass, alert pass, then the two sweeps; returns the new
state and the alerts sent to the `driver-alerts` channel. -/
def checkSpeedViolations (now : Nat) (vehicles : List NormVehicle)
    (st : SpeedState) : SpeedState × List Alert :=
  let tracker1 := trackerPass now vehicles st.tracker
  let (recent1, alerts) := vehicles.foldl (alertStep now tracker1) (st.recent, [])
  (⟨sweepRecent now recent1, sweepTracker now tracker1⟩, alerts)

/-- A sequence of polls (`refreshOnce` / `checkSpeedOnly` invocations), each a
wall-clock instant with the fetched vehicle list, driven through
`checkSpeedViolations`; collects every alert emitted. -/
def runPolls : List (Nat × List NormVehicle) → SpeedState → SpeedState × List Alert
  | [], st => (st, [])
  | (t, vs) :: rest, st =>
    let r1 := checkSpeedViolations t vs st
    let r2 := runPolls rest r1.1
    (r2.1, r1.2 ++ r2.2)

/-! ## Theorems -/

/-- A JavaScript number that is not negative (NaN is not a negative value). -/
def JNum.nonNeg : JNum → Prop
  | .fin q => 0 ≤ q
  | .inf p => p = true
  | .nan => True

lemma jsMax0_nonNeg (n : JNum) : (jsMax0 n).nonNeg := by
  cases n with
  | fin q => simpa [jsMax0, JNum.nonNeg] using le_max_left 0 q
  | inf p => cases p <;> simp [jsMax0, JNum.nonNeg]
  | nan => simp [jsMax0, JNum.nonNeg]

lemma todayRows_eq_nil {db : Db} {vid : JNum} {cutoff : String}
    (h : ∀ r ∈ db.history, ¬(r.vehicleid = vid ∧ sqlGeKey r.time_indicator cutoff = true)) :
    todayRows db vid cutoff = [] := by
  refine List.filter_eq_nil.2 fun r hr => ?_
  have := h r hr
  simp only [Bool.and_eq_true, decide_eq_true_eq]
  exact fun hc => this ⟨hc.1, hc.2⟩

/-- Claim C4 (daily-delta clamp): with a day-start baseline each daily counter
is `max(0, (current || 0) − todayStart)` and is never negative; with no
history row at or after the local day start the daily counters equal the
current `(x || 0)` values; and a baseline of 100 with a current reading of 80
(counter reset) clamps to a daily drive time of 0. -/
theorem daily_delta_clamp (db : Db) (cutoff : String) (v : LastRow) :
    (∀ start, getTodayStartValues db cutoff v.vehicleid = some start →
      addDailyTimesToVehicle (getTodayStartValues db cutoff) v =
        { dailyDrivetime := jsMax0 (jsSub (jsNumOrZeroOpt v.drivetime) start.drivetime)
          dailyWorktime := jsMax0 (jsSub (jsNumOrZeroOpt v.worktime) start.worktime)
          dailyIdletime := jsMax0 (jsSub (jsNumOrZeroOpt v.idletime) start.idletime)
          dailyStoptime := jsMax0 (jsSub (jsNumOrZeroOpt v.stoptime) start.stoptime) } ∧
      (addDailyTimesToVehicle (getTodayStartValues db cutoff) v).dailyDrivetime.nonNeg ∧
      (addDailyTimesToVehicle (getTodayStartValues db cutoff) v).dailyWorktime.nonNeg ∧
      (addDailyTimesToVehicle (getTodayStartValues db cutoff) v).dailyIdletime.nonNeg ∧
      (addDailyTimesToVehicle (getTodayStartValues db cutoff) v).dailyStoptime.nonNeg) ∧
    ((∀ r ∈ db.history, ¬(r.vehicleid = v.vehicleid ∧ sqlGeKey r.time_indicator cutoff = true)) →
      addDailyTimesToVehicle (getTodayStartValues db cutoff) v =
        { dailyDrivetime := jsNumOrZeroOpt v.drivetime
          dailyWorktime := jsNumOrZeroOpt v.worktime
          dailyIdletime := jsNumOrZeroOpt v.idletime
          dailyStoptime := jsNumOrZeroOpt v.stoptime }) ∧
    jsMax0 (jsSub (.fin 80) (.fin 100)) = .fin 0 := by
  refine ⟨fun start hs => ?_, fun hnone => ?_, ?_⟩
  · refine ⟨?_, ?_⟩
    · unfold addDailyTimesToVehicle
      rw [hs]
    · unfold addDailyTimesToVehicle
      rw [hs]
      exact ⟨jsMax0_nonNeg _, jsMax0_nonNeg _, jsMax0_nonNeg _, jsMax0_nonNeg _⟩
  · have hrows : todayRows db v.vehicleid cutoff = [] := todayRows_eq_nil hnone
    unfold addDailyTimesToVehicle
    rw [show getTodayStartValues db cutoff v.vehicleid = none by
      unfold getTodayStartValues
      rw [hrows]
      rfl]
  · show jsMax0 (jsSub (.fin 80) (.fin 100)) = .fin 0
    have : (80 : Rat) - 100 = -20 := by norm_num
    simp only [jsSub, jsMax0, this]
    norm_num

/-- Witness for C4: a concrete database whose single vehicle has a history
row today with driveTime 100 while the live reading is 80; the theorem forces
a clamped daily drive time of 0. -/
theorem daily_delta_clamp_witness :
    getTodayStartValues
        ⟨[], [⟨.fin 7, none, none, none, none, some ("2024-01-02T05:00:00.000Z"), none,
          some (.fin 100), none, none, none, none, none, "2024-01-02T05:00:01.000Z"⟩]⟩
        ("2024-01-01T21:00:00.000Z") (JNum.fin 7) =
      some ⟨.fin 100, .fin 0, .fin 0, .fin 0⟩ ∧
    (addDailyTimesToVehicle
        (getTodayStartValues
          ⟨[], [⟨.fin 7, none, none, none, none, some ("2024-01-02T05:00:00.000Z"), none,
            some (.fin 100), none, none, none, none, none, "2024-01-02T05:00:01.000Z"⟩]⟩
          ("2024-01-01T21:00:00.000Z"))
        ⟨.fin 7, none, none, none, none, none, none, none, none, none, some (.fin 80), none,
          none, none, none, none, none, none, none, "2024-01-02T05:00:01.000Z"⟩).dailyDrivetime =
      jsMax0 (jsSub (.fin 80) (.fin 100)) := by
  constructor
  · decide
  · have h := (daily_delta_clamp
      ⟨[], [⟨.fin 7, none, none, none, none, some ("2024-01-02T05:00:00.000Z"), none,
        some (.fin 100), none, none, none, none, none, "2024-01-02T05:00:01.000Z"⟩]⟩
      ("2024-01-01T21:00:00.000Z")
      ⟨.fin 7, none, none, none, none, none, none, none, none, none, some (.fin 80), none,
        none, none, none, none, none, none, none, "2024-01-02T05:00:01.000Z"⟩).1
      ⟨.fin 100, .fin 0, .fin 0, .fin 0⟩ (by decide)
    rw [h.1]
    rfl

/-- Claim C7 (retention pruning): `deleteHistoryOlderThan` is a no-op
returning 0 whenever `days` is not a positive finite number; for a positive
`days` it keeps exactly the rows that are not strictly older than the
`now − days` cutoff, never deletes rows with a null `time_indicator`, returns
the number of deleted rows, and leaves the last-state table unchanged. -/
theorem retention_pruning (nowMs : Int) (days : JNum) (db : Db) :
    ((∀ q, days = .fin q → q ≤ 0) → deleteHistoryOlderThan nowMs days db = (0, db)) ∧
    (∀ q, days = .fin q → 0 < q →
      (∀ r ∈ db.history,
        r ∈ (deleteHistoryOlderThan nowMs days db).2.history ↔
          ¬∃ t, r.time_indicator = some t ∧ strLtB t (retentionCutoffIso nowMs q) = true) ∧
      (∀ r ∈ db.history, r.time_indicator = none →
        r ∈ (deleteHistoryOlderThan nowMs days db).2.history) ∧
      (deleteHistoryOlderThan nowMs days db).1 =
        (db.history.filter (rowOlderThan (retentionCutoffIso nowMs q))).length ∧
      (deleteHistoryOlderThan nowMs days db).2.last = db.last) := by
  constructor
  · intro h
    cases days with
    | fin q =>
      have hq : q ≤ 0 := h q rfl
      simp [deleteHistoryOlderThan, hq]
    | inf p => rfl
    | nan => rfl
  · rintro q rfl hq
    have hne : ¬ q ≤ 0 := not_le.2 hq
    have hmem : ∀ r ∈ db.history,
        r ∈ (deleteHistoryOlderThan nowMs (.fin q) db).2.history ↔
          ¬∃ t, r.time_indicator = some t ∧ strLtB t (retentionCutoffIso nowMs q) = true := by
      intro r hr
      simp only [deleteHistoryOlderThan, if_neg hne]
      constructor
      · intro hin hex
        obtain ⟨t, ht, hlt⟩ := hex
        have := List.of_mem_filter hin
        rw [Bool.not_eq_eq_eq_not] at this
        simp only [Bool.not_true] at this
        rw [rowOlderThan, ht] at this
        simp [hlt] at this
      · intro hno
        refine List.mem_filter.2 ⟨hr, ?_⟩
        cases hti : r.time_indicator with
        | none => simp [rowOlderThan, hti]
        | some t =>
          by_cases hlt : strLtB t (retentionCutoffIso nowMs q) = true
          · exact absurd ⟨t, hti, hlt⟩ hno
          · simp [rowOlderThan, hti, hlt]
    refine ⟨hmem, fun r hr hnull => ?_, ?_, ?_⟩
    · exact (hmem r hr).2 (by
        rintro ⟨t, ht, -⟩
        rw [hnull] at ht
        exact Option.noConfusion ht)
    · simp [deleteHistoryOlderThan, if_neg hne]
    · simp [deleteHistoryOlderThan, if_neg hne]

/-- Witness for C7: deleting with `days = 30` from a two-row table keeps the
row with a null timestamp. -/
theorem retention_pruning_witness :
    (⟨.fin 7, none, none, none, none, none, none, none, none, none, none, none, none,
        "2024-01-02T05:00:01.000Z"⟩ : HistRow) ∈
      (deleteHistoryOlderThan 1700000000000 (.fin 30)
        ⟨[], [⟨.fin 7, none, none, none, none, none, none, none, none, none, none, none, none,
          "2024-01-02T05:00:01.000Z"⟩]⟩).2.history := by
  refine ((retention_pruning 1700000000000 (.fin 30)
    ⟨[], [⟨.fin 7, none, none, none, none, none, none, none, none, none, none, none, none,
      "2024-01-02T05:00:01.000Z"⟩]⟩).2 30 rfl (by norm_num)).2.1 _ ?_ rfl
  simp

set_option maxRecDepth 4000 in
/-- Claim C9, counterexample: the claimed 240-character bound fails on both
truncating branches — a 300-character string response yields a summary of
exactly 241 characters (240 characters plus the appended ellipsis), and an
object response with a single 300-character key name yields a summary of 314
characters, since the object branch joins key names without truncation. -/
theorem summary_bound_counterexample :
    (summarizeInitializeSessionResponse (.str (String.mk (List.replicate 300 'a')))).length
        = 241 ∧
    ¬(summarizeInitializeSessionResponse (.str (String.mk (List.replicate 300 'a')))).length
        ≤ 240 ∧
    (summarizeInitializeSessionResponse (.obj [String.mk (List.replicate 300 'a')])).length
        = 314 ∧
    ¬(summarizeInitializeSessionResponse (.obj [String.mk (List.replicate 300 'a')])).length
        ≤ 240 := by
  refine ⟨by decide, by decide, by decide, by decide⟩

/-- Claim C9 as amended: the summary embedded in the `ensureToken` failure is
not bounded by any constant across all response payloads.  For a string
payload it is at most 241 characters (at most 240 characters of the
whitespace-collapsed response plus a one-character ellipsis); null and
boolean payloads summarize to short constants; but the object branch joins up
to the first 12 key names untruncated, so a single key of `n` characters
yields a summary of exactly `n + 14` characters and the summary length grows
without bound with the key names. -/
theorem summary_bound_amended :
    (∀ s : String, (summarizeInitializeSessionResponse (.str s)).length ≤ 241) ∧
    (summarizeInitializeSessionResponse .nullv).length ≤ 241 ∧
    (∀ b, (summarizeInitializeSessionResponse (.bool b)).length ≤ 241) ∧
    (∀ n : Nat, (summarizeInitializeSessionResponse
      (.obj [String.mk (List.replicate n 'a')])).length = n + 14) ∧
    (∀ N : Nat, ∃ d : RespData, N < (summarizeInitializeSessionResponse d).length) := by
  have hstr : ∀ s : String, (summarizeInitializeSessionResponse (.str s)).length ≤ 241 := by
    intro s
    show (String.mk (summarizeStrChars s.toList)).length ≤ 241
    have : ∀ cs : List Char, (summarizeStrChars cs).length ≤ 241 := by
      intro cs
      unfold summarizeStrChars
      by_cases h : 240 < (trimChars (collapseWs cs)).length
      · simp only [if_pos h, List.length_append, List.length_take, List.length_cons,
          List.length_nil]
        omega
      · simp only [if_neg h]
        omega
    simpa [String.length] using this s.toList
  have hobj : ∀ n : Nat, (summarizeInitializeSessionResponse
      (.obj [String.mk (List.replicate n 'a')])).length = n + 14 := by
    intro n
    have e : summarizeInitializeSessionResponse (.obj [String.mk (List.replicate n 'a')]) =
        (("object keys=[" ++ String.mk (List.replicate n 'a')) ++ "") ++ "]" := rfl
    have l1 : ("object keys=[" : String).length = 13 := rfl
    have l2 : ("]" : String).length = 1 := rfl
    have l3 : ("" : String).length = 0 := rfl
    have l4 : (String.mk (List.replicate n 'a')).length = n := by
      simp [String.length]
    rw [e, String.length_append, String.length_append, String.length_append, l1, l2, l3, l4]
    omega
  refine ⟨hstr, by decide, fun b => by cases b <;> decide, hobj, ?_⟩
  intro N
  refine ⟨.obj [String.mk (List.replicate (N + 1) 'a')], ?_⟩
  rw [hobj (N + 1)]
  omega

lemma jsRound_isFinite (n : JNum) : (jsRound n).isFinite = n.isFinite := by
  cases n <;> rfl

unseal Rat.mul Rat.add Rat.inv Rat.sub in
lemma velocity_876 : (normalizeVehicle { velocity := .str "87.6" }).velocity = some (.fin 88) := by
  decide

/-- Claim C8, counterexample: `normalizeVehicle` passes `latitude` through
`Number()` with no finiteness guard, so the non-numeric input `"abc"` yields
`NaN`, not `null` as claimed. -/
theorem numeric_normalization_counterexample :
    (normalizeVehicle { latitude := .str "abc" }).latitude = some .nan ∧
    some JNum.nan ≠ (none : Option JNum) := by
  exact ⟨by decide, by decide⟩

/-- Claim C8 as amended: only `velocity` parses defensively — a missing or
empty raw velocity, and any velocity whose `Number()` coercion is not finite
(in particular any non-numeric string), normalize to `null`, while `"87.6"`
normalizes to the rounded integer 88; the other numeric fields (latitude and
its peers) are passed through `Number()` unguarded, so non-numeric input
yields `NaN` at this stage (it is nulled out later by the persistence layer's
`numOrNull`). -/
theorem numeric_normalization_amended (row : RawRow) :
    ((toNumber row.velocity).isFinite = false → (normalizeVehicle row).velocity = none) ∧
    (row.velocity = .null → (normalizeVehicle row).velocity = none) ∧
    (row.velocity = .str "" → (normalizeVehicle row).velocity = none) ∧
    (normalizeVehicle { velocity := .str "87.6" }).velocity = some (.fin 88) ∧
    (row.latitude ≠ .null → (normalizeVehicle row).latitude = some (toNumber row.latitude)) ∧
    (row.latitude = .null → (normalizeVehicle row).latitude = none) := by
  refine ⟨fun hfin => ?_, fun h0 => ?_, fun h1 => ?_, ?_, fun hlat => ?_, fun hlat => ?_⟩
  · by_cases h0 : row.velocity = .null
    · simp [normalizeVehicle, h0]
    · by_cases h1 : row.velocity = .str ""
      · simp [normalizeVehicle, h1]
      · simp [normalizeVehicle, h0, h1, jsRound_isFinite, hfin]
  · simp [normalizeVehicle, h0]
  · simp [normalizeVehicle, h1]
  · exact velocity_876
  · simp [normalizeVehicle, hlat]
  · simp [normalizeVehicle, hlat]

/-- Witness for C8: on a row whose velocity is the non-numeric string
`"xyz"`, the amended theorem yields a `null` normalized velocity. -/
theorem numeric_normalization_amended_witness :
    (toNumber ((({ velocity := .str "xyz" } : RawRow)).velocity)).isFinite = false ∧
    (normalizeVehicle { velocity := .str "xyz" }).velocity = none :=
  ⟨by decide, (numeric_normalization_amended { velocity := .str "xyz" }).1 (by decide)⟩

/-- The last-state rows stored for a vehicle id. -/
def lastRowsFor (db : Db) (k : JNum) : List LastRow :=
  db.last.filter (fun r => decide (r.vehicleid = k))

/-- The history rows stored for a `(vehicleid, time_indicator)` key. -/
def histRowsFor (db : Db) (k : JNum) (ti : String) : List HistRow :=
  db.history.filter (fun r => decide (r.vehicleid = k) && decide (r.time_indicator = some ti))

lemma upsert_single (u : String) (v : NormVehicle) (db : Db) :
    upsertLastAndHistory u [v] db =
      match h : (mkLastRecord u v).time_indicator with
      | some _ =>
        ((1, (insertOrIgnoreHistory db.history (histOfRecord (mkLastRecord u v))).1),
          ⟨upsertLastRow db.last (mkLastRecord u v),
            (insertOrIgnoreHistory db.history (histOfRecord (mkLastRecord u v))).2⟩)
      | none => ((1, 0), ⟨upsertLastRow db.last (mkLastRecord u v), db.history⟩) := by
  cases h : (mkLastRecord u v).time_indicator <;>
    simp [upsertLastAndHistory, h]

lemma length_filter_map_replace (k : JNum) (rec2 : LastRow) (h2 : rec2.vehicleid = k) :
    ∀ l : List LastRow,
      ((l.map (fun r => if r.vehicleid = k then rec2 else r)).filter
          (fun r => decide (r.vehicleid = k))).length =
        (l.filter (fun r => decide (r.vehicleid = k))).length := by
  intro l
  induction l with
  | nil => rfl
  | cons r l ih =>
    by_cases hr : r.vehicleid = k
    · simp only [List.map_cons, if_pos hr, List.filter_cons]
      simp [h2, hr, ih]
    · simp only [List.map_cons, if_neg hr, List.filter_cons]
      simp [hr, ih]

/-- Claim C2 (upsert idempotence): starting from a database holding no row for
the vehicle, upserting the same record (with a truthy coalesced
`timeIndicator`) twice leaves exactly one last-state row and exactly one
history row for that vehicle key; the first call reports
`(updated, historyInserted) = (1, 1)`, the second call reports `(1, 0)` and
leaves the history table unchanged (the insert is ignored), while the
last-state row is overwritten in place. -/
theorem upsert_idempotent (db : Db) (u1 u2 : String) (v : NormVehicle) (ti : String)
    (hti : coalesceText v.time_indicator = some ti)
    (hl : ∀ r ∈ db.last, r.vehicleid ≠ numOfOpt v.vehicleid)
    (hh : ∀ r ∈ db.history, ¬(r.vehicleid = numOfOpt v.vehicleid ∧ r.time_indicator = some ti)) :
    (lastRowsFor (upsertLastAndHistory u2 [v] (upsertLastAndHistory u1 [v] db).2).2
        (numOfOpt v.vehicleid)).length = 1 ∧
    (histRowsFor (upsertLastAndHistory u2 [v] (upsertLastAndHistory u1 [v] db).2).2
        (numOfOpt v.vehicleid) ti).length = 1 ∧
    (upsertLastAndHistory u2 [v] (upsertLastAndHistory u1 [v] db).2).2.history =
      (upsertLastAndHistory u1 [v] db).2.history ∧
    (upsertLastAndHistory u1 [v] db).1 = (1, 1) ∧
    (upsertLastAndHistory u2 [v] (upsertLastAndHistory u1 [v] db).2).1 = (1, 0) := by
  have hkey1 : (mkLastRecord u1 v).vehicleid = numOfOpt v.vehicleid := rfl
  have hkey2 : (mkLastRecord u2 v).vehicleid = numOfOpt v.vehicleid := rfl
  have hti1 : (mkLastRecord u1 v).time_indicator = some ti := hti
  have hti2 : (mkLastRecord u2 v).time_indicator = some ti := hti
  have hany1 : db.last.any (fun r => decide (r.vehicleid = (mkLastRecord u1 v).vehicleid))
      = false := by
    simp only [List.any_eq_false, decide_eq_true_eq]
    intro r hr
    exact hl r hr
  have hanyh1 : db.history.any (fun r =>
      decide (r.vehicleid = (histOfRecord (mkLastRecord u1 v)).vehicleid) &&
        decide (r.time_indicator = (histOfRecord (mkLastRecord u1 v)).time_indicator))
      = false := by
    simp only [List.any_eq_false, Bool.and_eq_true, decide_eq_true_eq, not_and]
    intro r hr h1 h2
    exact hh r hr ⟨h1, by simpa [histOfRecord, hti1] using h2⟩
  have hstep1 : upsertLastAndHistory u1 [v] db =
      ((1, 1), ⟨db.last ++ [mkLastRecord u1 v],
        db.history ++ [histOfRecord (mkLastRecord u1 v)]⟩) := by
    rw [upsert_single]
    split
    · simp [insertOrIgnoreHistory, hanyh1, upsertLastRow, hany1]
    · rename_i hnone
      rw [hti1] at hnone
      exact Option.noConfusion hnone
  have hmem1 : mkLastRecord u1 v ∈ db.last ++ [mkLastRecord u1 v] :=
    List.mem_append_right _ (List.mem_singleton.2 rfl)
  have hany2 : (db.last ++ [mkLastRecord u1 v]).any
      (fun r => decide (r.vehicleid = (mkLastRecord u2 v).vehicleid)) = true := by
    refine List.any_eq_true.2 ⟨mkLastRecord u1 v, hmem1, ?_⟩
    simp [hkey1, hkey2]
  have hanyh2 : (db.history ++ [histOfRecord (mkLastRecord u1 v)]).any (fun r =>
      decide (r.vehicleid = (histOfRecord (mkLastRecord u2 v)).vehicleid) &&
        decide (r.time_indicator = (histOfRecord (mkLastRecord u2 v)).time_indicator))
      = true := by
    refine List.any_eq_true.2 ⟨histOfRecord (mkLastRecord u1 v),
      List.mem_append_right _ (List.mem_singleton.2 rfl), ?_⟩
    simp [histOfRecord, hkey1, hkey2, hti1, hti2]
  have hstep2 : upsertLastAndHistory u2 [v] ((upsertLastAndHistory u1 [v] db).2) =
      ((1, 0), ⟨(db.last ++ [mkLastRecord u1 v]).map
          (fun r => if r.vehicleid = (mkLastRecord u2 v).vehicleid then mkLastRecord u2 v else r),
        db.history ++ [histOfRecord (mkLastRecord u1 v)]⟩) := by
    rw [hstep1]
    rw [upsert_single]
    split
    · simp [insertOrIgnoreHistory, hanyh2, upsertLastRow, hany2]
    · rename_i hnone
      rw [hti2] at hnone
      exact Option.noConfusion hnone
  refine ⟨?_, ?_, ?_, ?_, ?_⟩
  · rw [hstep2]
    show ((db.last ++ [mkLastRecord u1 v]).map
        (fun r => if r.vehicleid = (mkLastRecord u2 v).vehicleid then mkLastRecord u2 v else r)
          |>.filter (fun r => decide (r.vehicleid = numOfOpt v.vehicleid))).length = 1
    rw [hkey2, length_filter_map_replace (numOfOpt v.vehicleid) (mkLastRecord u2 v) hkey2]
    rw [List.filter_append]
    have : db.last.filter (fun r => decide (r.vehicleid = numOfOpt v.vehicleid)) = [] := by
      refine List.filter_eq_nil_iff.2 fun r hr => ?_
      simp [hl r hr]
    rw [this]
    simp [hkey1]
  · rw [hstep2]
    show ((db.history ++ [histOfRecord (mkLastRecord u1 v)]).filter (fun r =>
        decide (r.vehicleid = numOfOpt v.vehicleid) &&
          decide (r.time_indicator = some ti))).length = 1
    rw [List.filter_append]
    have : db.history.filter (fun r =>
        decide (r.vehicleid = numOfOpt v.vehicleid) && decide (r.time_indicator = some ti))
        = [] := by
      refine List.filter_eq_nil_iff.2 fun r hr => ?_
      have := hh r hr
      simp only [Bool.and_eq_true, decide_eq_true_eq, not_and]
      exact fun h1 h2 => this ⟨h1, h2⟩
    rw [this]
    simp [histOfRecord, hkey1, hti1]
  · rw [hstep2, hstep1]
  · rw [hstep1]
  · rw [hstep2]

/-- Witness for C2: upserting one concrete vehicle twice into the empty
database leaves exactly one last-state row and one history row, with the
second call reporting no history insert. -/
theorem upsert_idempotent_witness :
    coalesceText (some ("2024-03-01T10:00:00.000Z")) = some ("2024-03-01T10:00:00.000Z") ∧
    (upsertLastAndHistory "2024-03-01T10:05:00.000Z"
        [⟨some (.fin 5), none, none, none, none, some (.fin 50), none, none, none,
          some ("2024-03-01T10:00:00.000Z"), none, none, none, none, none, none, none, none,
          none⟩]
        (upsertLastAndHistory "2024-03-01T10:00:01.000Z"
          [⟨some (.fin 5), none, none, none, none, some (.fin 50), none, none, none,
            some ("2024-03-01T10:00:00.000Z"), none, none, none, none, none, none, none, none,
            none⟩] ⟨[], []⟩).2).1 = (1, 0) := by
  refine ⟨by decide, ?_⟩
  exact (upsert_idempotent ⟨[], []⟩ "2024-03-01T10:00:01.000Z" "2024-03-01T10:05:00.000Z"
    ⟨some (.fin 5), none, none, none, none, some (.fin 50), none, none, none,
      some ("2024-03-01T10:00:00.000Z"), none, none, none, none, none, none, none, none, none⟩
    ("2024-03-01T10:00:00.000Z") (by decide) (by simp) (by simp)).2.2.2.2

/-- Run-length condensation of a classification sequence: one entry per
maximal run of equal consecutive classifications. -/
def condense : List SegType → List SegType
  | [] => []
  | [a] => [a]
  | a :: b :: rest => if a = b then condense (b :: rest) else a :: condense (b :: rest)

lemma condense_cons_cons (a b : SegType) (l : List SegType) :
    condense (a :: b :: l) = if a = b then condense (b :: l) else a :: condense (b :: l) :=
  rfl

lemma segLoop_types (rows : List RRow) :
    ∀ cur, (segLoop cur rows).map Segment.type = condense (cur.type :: rows.map classify) := by
  induction rows with
  | nil => intro cur; rfl
  | cons r rest ih =>
    intro cur
    by_cases h : classify r = cur.type
    · simp only [segLoop, if_pos h, List.map_cons, condense_cons_cons]
      rw [ih (extendSegment cur r)]
      have he : (extendSegment cur r).type = cur.type := rfl
      rw [he, if_pos h.symm, h]
    · simp only [segLoop, if_neg h, List.map_cons, condense_cons_cons]
      rw [ih (newSegment r)]
      have hn : (newSegment r).type = classify r := rfl
      rw [hn, if_neg (fun hc => h hc.symm)]

lemma report_types (hav : JNum → JNum → JNum → JNum → Rat) (history : List RRow) :
    (apiDriveStopReport hav history).segments.map (fun s => s.seg.type) =
      condense (history.map classify) := by
  cases history with
  | nil => rfl
  | cons r rest =>
    show ((segLoop (newSegment r) rest).map (finishSegment hav)).map (fun s => s.seg.type) = _
    rw [List.map_map]
    have hc : ((fun s : SegOut => s.seg.type) ∘ finishSegment hav) = Segment.type := rfl
    rw [hc, segLoop_types]
    rfl

/-- The claimed example history: velocities `[0, 0, 10, 10, 0]` at one-minute
spacing. -/
def exampleHistory : List RRow :=
  [⟨some (.fin 0), 0, none, none, none, none, none⟩,
    ⟨some (.fin 0), 60000, none, none, none, none, none⟩,
    ⟨some (.fin 10), 120000, none, none, none, none, none⟩,
    ⟨some (.fin 10), 180000, none, none, none, none, none⟩,
    ⟨some (.fin 0), 240000, none, none, none, none, none⟩]

/-- Claim C5 (drive/stop segmentation): samples classify as Drive at or above
1 km/h (a null velocity counting as 0) and Stop below it; the report's
segment types are exactly the run-length condensation of the per-sample
classifications (one segment per maximal run), whatever the Haversine kernel;
the example history `[0, 0, 10, 10, 0]` yields exactly 3 segments typed
`[Stop, Drive, Stop]`; and empty history yields the empty segment list with a
zeroed summary rather than an error. -/
theorem segmentation_runs (hav : JNum → JNum → JNum → JNum → Rat) (history : List RRow) :
    (∀ r : RRow, r.velocity = none → classify r = .stop) ∧
    (apiDriveStopReport hav history).segments.map (fun s => s.seg.type) =
      condense (history.map classify) ∧
    apiDriveStopReport hav [] =
      ⟨[], ⟨.num (.fin 0), none, .num (.fin 0), none, 0⟩⟩ ∧
    (apiDriveStopReport hav exampleHistory).segments.map (fun s => s.seg.type) =
      [.stop, .drive, .stop] ∧
    (apiDriveStopReport hav exampleHistory).segments.length = 3 := by
  have hex : (apiDriveStopReport hav exampleHistory).segments.map (fun s => s.seg.type) =
      [.stop, .drive, .stop] := by
    rw [report_types]
    decide
  refine ⟨fun r hr => ?_, report_types hav history, rfl, hex, ?_⟩
  · unfold classify
    rw [hr]
    decide
  · have := congrArg List.length hex
    simpa using this

/-- Whether one candidate attempt succeeds as the code judges it: the HTTP
call returns (does not raise) and the payload carries no API-level error
object. -/
def attemptSuccess (oracle : FetchOracle) (fn : String) : Bool :=
  match oracle fn with
  | .error _ => false
  | .ok none => true
  | .ok (some p) => p.error.isNone

/-- The failure message remembered for a failed attempt (`none` when the
attempt succeeded). -/
def attemptFailMsg (oracle : FetchOracle) (fn : String) : Option String :=
  match oracle fn with
  | .error e => some e
  | .ok (some p) =>
    match p.error with
    | some err => some (mkFnErrorMessage fn err)
    | none => none
  | .ok none => none

/-- The payload delivered by an attempt (junk when the attempt raised). -/
def attemptPayload (oracle : FetchOracle) (fn : String) : Option Payload :=
  match oracle fn with
  | .ok p => p
  | .error _ => none

lemma fetchGo_cons (oracle : FetchOracle) (nowIso g : String) (rest : List String)
    (lastError : Option String) :
    fetchGo oracle nowIso (g :: rest) lastError =
      match oracle g with
      | .error e => fetchGo oracle nowIso rest (some e)
      | .ok (some p) =>
        match p.error with
        | some err => fetchGo oracle nowIso rest (some (mkFnErrorMessage g err))
        | none => .ok ⟨vehiclesOfPayload (some p), g, nowIso⟩
      | .ok none => .ok ⟨vehiclesOfPayload none, g, nowIso⟩ := by
  show (match oracle g with
    | .error e => fetchGo oracle nowIso rest (some e)
    | .ok payload =>
      match payload with
      | some p =>
        match p.error with
        | some err => fetchGo oracle nowIso rest (some (mkFnErrorMessage g err))
        | none => .ok ⟨vehiclesOfPayload payload, g, nowIso⟩
      | none => .ok ⟨vehiclesOfPayload none, g, nowIso⟩) = _
  cases oracle g with
  | error e => rfl
  | ok payload => cases payload with
    | none => rfl
    | some p => cases p.error <;> rfl

lemma fetchGo_first_success (oracle : FetchOracle) (nowIso : String) :
    ∀ (fns : List String) (lastError : Option String) (fn : String),
      fns.find? (attemptSuccess oracle) = some fn →
      fetchGo oracle nowIso fns lastError =
        .ok ⟨vehiclesOfPayload (attemptPayload oracle fn), fn, nowIso⟩ := by
  intro fns
  induction fns with
  | nil => intro lastError fn h; exact Option.noConfusion h
  | cons g rest ih =>
    intro lastError fn h
    rw [List.find?_cons] at h
    rw [fetchGo_cons]
    cases hs : attemptSuccess oracle g with
    | true =>
      rw [hs] at h
      cases h
      cases ho : oracle g with
      | error e =>
        simp only [attemptSuccess, ho] at hs
        exact Bool.noConfusion hs
      | ok payload =>
        cases payload with
        | none => simp only [attemptPayload, ho]
        | some p =>
          simp only [attemptSuccess, ho, Option.isNone_iff_eq_none] at hs
          simp only [attemptPayload, ho, hs]
    | false =>
      rw [hs] at h
      simp only [Bool.false_eq_true, if_false] at h
      cases ho : oracle g with
      | error e =>
        simp only [ho]
        exact ih _ fn h
      | ok payload =>
        cases payload with
        | none =>
          simp only [attemptSuccess, ho] at hs
          exact Bool.noConfusion hs
        | some p =>
          cases hperr : p.error with
          | none =>
            simp only [attemptSuccess, ho, hperr, Option.isNone_none] at hs
            exact Bool.noConfusion hs
          | some err =>
            simp only [ho, hperr]
            exact ih _ fn h

lemma fetchGo_all_fail (oracle : FetchOracle) (nowIso : String) :
    ∀ (fns : List String) (lastError : Option String),
      (∀ fn ∈ fns, attemptSuccess oracle fn = false) →
      fetchGo oracle nowIso fns lastError =
        .error ((match fns.getLast? with
          | some g => attemptFailMsg oracle g
          | none => lastError).getD ("GPSBuddy live data alınamadı")) := by
  intro fns
  induction fns with
  | nil => intro lastError _; rfl
  | cons g rest ih =>
    intro lastError hfail
    have hg : attemptSuccess oracle g = false := hfail g (List.mem_cons_self g rest)
    have hrest : ∀ fn ∈ rest, attemptSuccess oracle fn = false :=
      fun fn hfn => hfail fn (List.mem_cons_of_mem g hfn)
    have step : ∃ m, attemptFailMsg oracle g = some m ∧
        fetchGo oracle nowIso (g :: rest) lastError = fetchGo oracle nowIso rest (some m) := by
      rw [fetchGo_cons]
      cases ho : oracle g with
      | error e =>
        refine ⟨e, ?_, ?_⟩
        · simp only [attemptFailMsg, ho]
        · simp only [ho]
      | ok payload =>
        cases payload with
        | none =>
          simp only [attemptSuccess, ho] at hg
          exact Bool.noConfusion hg
        | some p =>
          cases hperr : p.error with
          | none =>
            simp only [attemptSuccess, ho, hperr, Option.isNone_none] at hg
            exact Bool.noConfusion hg
          | some err =>
            refine ⟨mkFnErrorMessage g err, ?_, ?_⟩
            · simp only [attemptFailMsg, ho, hperr]
            · simp only [ho, hperr]
    obtain ⟨m, hm, hstep⟩ := step
    rw [hstep, ih (some m) hrest]
    cases rest with
    | nil => simp [hm]
    | cons r2 rest2 =>
      rw [List.getLast?_cons_cons]
      cases hgl : (r2 :: rest2).getLast? with
      | none =>
        rw [List.getLast?_eq_none_iff] at hgl
        exact List.noConfusion hgl
      | some x => rfl

lemma fetchGo_ok_shape (oracle : FetchOracle) (nowIso : String) :
    ∀ (fns : List String) (lastError : Option String) (r : FetchResult),
      fetchGo oracle nowIso fns lastError = .ok r →
      ∃ p fn, r = ⟨vehiclesOfPayload p, fn, nowIso⟩ := by
  intro fns
  induction fns with
  | nil => intro lastError r h; exact Except.noConfusion h
  | cons g rest ih =>
    intro lastError r h
    rw [fetchGo_cons] at h
    cases ho : oracle g with
    | error e =>
      rw [ho] at h
      exact ih _ r h
    | ok payload =>
      rw [ho] at h
      cases payload with
      | none =>
        replace h : Except.ok ⟨vehiclesOfPayload none, g, nowIso⟩ = Except.ok r := h
        cases h
        exact ⟨none, g, rfl⟩
      | some p =>
        replace h : (match p.error with
          | some err => fetchGo oracle nowIso rest (some (mkFnErrorMessage g err))
          | none =>
            Except.ok ⟨vehiclesOfPayload (some p), g, nowIso⟩) = Except.ok r := h
        cases hperr : p.error with
        | none =>
          rw [hperr] at h
          replace h : Except.ok ⟨vehiclesOfPayload (some p), g, nowIso⟩ = Except.ok r := h
          cases h
          exact ⟨some p, g, rfl⟩
        | some err =>
          rw [hperr] at h
          exact ih _ r h

/-- The success criterion as claim C6 words it: the payload yields a
recognizable vehicle array under one of the known top-level keys. -/
def specRecognizableVehicleArray : Option Payload → Bool
  | none => false
  | some p =>
    [p.help_ws_gpsb_unitvehicle_filter, p.gpsb_unitvehicle_filter_by_group,
      p.gpsb_unitvehicle_filter, p.unitvehicle_filter, p.data].any
      (fun f =>
        match f with
        | some (.arr _) => true
        | _ => false)

/-- An oracle whose every response is a payload with none of the known keys
and no error object. -/
def emptyPayloadOracle : FetchOracle :=
  fun _ => .ok (some {})

/-- Claim C6, counterexample: with no configured endpoint and an upstream
that answers the first candidate with a payload containing no recognizable
vehicle array under any known key (and no error object), `fetchLiveVehicles`
nevertheless succeeds on that first candidate with an empty vehicle list —
the claimed requirement that success needs a recognizable vehicle array does
not hold. -/
theorem fetch_fallback_counterexample :
    fetchLiveVehicles emptyPayloadOracle none ("2024-01-01T00:00:00.000Z") =
      .ok ⟨[], "gpsb_unitvehicle_filter", "2024-01-01T00:00:00.000Z"⟩ ∧
    specRecognizableVehicleArray (some {}) = false := by
  exact ⟨rfl, rfl⟩

/-- Claim C6 as amended: the candidate list is the configured endpoint name
followed by the known alternates (truthy, first occurrences); the loop stops
at the first candidate whose HTTP call succeeds and whose payload carries no
API-level error object — no recognizable vehicle array is required, an
unrecognized or null payload succeeding with an empty vehicle list — and when
every candidate fails, the last candidate's remembered error is raised. -/
theorem fetch_fallback (oracle : FetchOracle) (liveEndpoint : Option String) (now : String) :
    candidateFns none =
      ["gpsb_unitvehicle_filter", "gpsb_unitvehicle_filter_2",
        "gpsb_unitvehicle_filter_by_group"] ∧
    (∀ fn, (candidateFns liveEndpoint).find? (attemptSuccess oracle) = some fn →
      fetchLiveVehicles oracle liveEndpoint now =
        .ok ⟨vehiclesOfPayload (attemptPayload oracle fn), fn, now⟩) ∧
    ((∀ fn ∈ candidateFns liveEndpoint, attemptSuccess oracle fn = false) →
      fetchLiveVehicles oracle liveEndpoint now =
        .error ((match (candidateFns liveEndpoint).getLast? with
          | some g => attemptFailMsg oracle g
          | none => none).getD ("GPSBuddy live data alınamadı"))) := by
  refine ⟨rfl, ?_, ?_⟩
  · intro fn h
    exact fetchGo_first_success oracle now (candidateFns liveEndpoint) none fn h
  · intro h
    exact fetchGo_all_fail oracle now (candidateFns liveEndpoint) none h

/-- Witness for C6: against the keyless-payload oracle the first candidate is
found successful and the fetch returns its (empty) vehicle list. -/
theorem fetch_fallback_witness :
    (candidateFns none).find? (attemptSuccess emptyPayloadOracle) =
      some ("gpsb_unitvehicle_filter") ∧
    fetchLiveVehicles emptyPayloadOracle none ("2024-01-01T00:00:00.000Z") =
      .ok ⟨vehiclesOfPayload (attemptPayload emptyPayloadOracle ("gpsb_unitvehicle_filter")),
        "gpsb_unitvehicle_filter", "2024-01-01T00:00:00.000Z"⟩ :=
  ⟨rfl, (fetch_fallback emptyPayloadOracle none ("2024-01-01T00:00:00.000Z")).2.1
    "gpsb_unitvehicle_filter" rfl⟩

/-- A payload whose vehicle array holds one row with the fractional
`vehicleid` string `"3.5"`. -/
def fractionalIdPayload : Payload :=
  { data := some (.arr [{ vehicleid := .str "3.5" }]) }

/-- An oracle answering every candidate with `fractionalIdPayload`. -/
def fractionalIdOracle : FetchOracle :=
  fun _ => .ok (some fractionalIdPayload)

unseal Rat.mul Rat.add Rat.inv Rat.sub in
/-- Claim C10, counterexample: an upstream row with `vehicleid` `"3.5"`
normalizes to the truthy numeric value 3.5 and passes the filter, so the
returned list carries a non-integer vehicleid — the claimed "nonzero, finite
integer" guarantee fails (only nonzero-and-not-NaN is enforced). -/
theorem vehicleid_filter_counterexample :
    ((fetchLiveVehicles fractionalIdOracle none ("2024-01-01T00:00:00.000Z")).toOption.map
        (fun r => r.vehicles.map (fun v => v.vehicleid))) = some [some (.fin (7/2))] ∧
    ((7 : Rat)/2).den ≠ 1 := by
  constructor <;> decide

/-- Claim C10 as amended: whenever `fetchLiveVehicles` succeeds, every record
in the returned vehicle list has a truthy numeric `vehicleid` — non-null, not
zero and not NaN — but it need not be a finite integer (fractional or
infinite numeric ids pass the truthiness filter). -/
theorem vehicleid_truthy_filter (oracle : FetchOracle) (liveEndpoint : Option String)
    (now : String) (r : FetchResult)
    (h : fetchLiveVehicles oracle liveEndpoint now = .ok r) :
    (∀ v ∈ r.vehicles, ∃ n, v.vehicleid = some n ∧ n.truthy = true ∧
      n ≠ .nan ∧ n ≠ .fin 0) ∧
    r.vehicles.all (fun v => optNumTruthy v.vehicleid) = true := by
  obtain ⟨p, fn, rfl⟩ := fetchGo_ok_shape oracle now (candidateFns liveEndpoint) none r h
  have hmem : ∀ v ∈ vehiclesOfPayload p, optNumTruthy v.vehicleid = true := by
    intro v hv
    simp only [vehiclesOfPayload] at hv
    exact (List.mem_filter.1 hv).2
  constructor
  · intro v hv
    have ht := hmem v hv
    cases hid : v.vehicleid with
    | none => rw [hid] at ht; exact Bool.noConfusion ht
    | some n =>
      rw [hid] at ht
      refine ⟨n, rfl, ht, ?_, ?_⟩
      · intro hn
        rw [hn] at ht
        exact Bool.noConfusion ht
      · intro hn
        rw [hn] at ht
        simp [optNumTruthy, JNum.truthy] at ht
  · exact List.all_eq_true.2 hmem

unseal Rat.mul Rat.add Rat.inv Rat.sub in
/-- Witness for C10: the amended theorem applied to the fractional-id oracle;
every returned record's vehicleid passes the truthiness check. -/
theorem vehicleid_truthy_filter_witness :
    (⟨vehiclesOfPayload (some fractionalIdPayload), "gpsb_unitvehicle_filter",
        "2024-01-01T00:00:00.000Z"⟩ : FetchResult).vehicles.all
      (fun v => optNumTruthy v.vehicleid) = true :=
  (vehicleid_truthy_filter fractionalIdOracle none ("2024-01-01T00:00:00.000Z") _ rfl).2

lemma cmpChars_swap : ∀ a b : List Char, cmpChars b a = (cmpChars a b).swap := by
  intro a
  induction a with
  | nil => intro b; cases b <;> rfl
  | cons x xs ih =>
    intro b
    cases b with
    | nil => rfl
    | cons y ys =>
      simp only [cmpChars]
      by_cases h1 : x.toNat < y.toNat
      · have h2 : ¬y.toNat < x.toNat := by omega
        simp [h1, h2, Ordering.swap]
      · by_cases h2 : y.toNat < x.toNat
        · simp [h1, h2, Ordering.swap]
        · simp [h1, h2, ih ys]

lemma cmpChars_lt_trans :
    ∀ a b c : List Char, cmpChars a b = .lt → cmpChars b c = .lt → cmpChars a c = .lt := by
  intro a
  induction a with
  | nil =>
    intro b c hab hbc
    cases c with
    | nil =>
      cases b with
      | nil => exact absurd hab (by simp [cmpChars])
      | cons y ys => exact absurd hbc (by simp [cmpChars])
    | cons z zs => simp [cmpChars]
  | cons x xs ih =>
    intro b c hab hbc
    cases b with
    | nil => exact absurd hab (by simp [cmpChars])
    | cons y ys =>
      cases c with
      | nil => exact absurd hbc (by simp [cmpChars])
      | cons z zs =>
        simp only [cmpChars] at hab hbc ⊢
        by_cases h1 : x.toNat < y.toNat
        · by_cases h2 : y.toNat < z.toNat
          · simp [show x.toNat < z.toNat by omega]
          · by_cases h3 : z.toNat < y.toNat
            · simp [h2, h3] at hbc
            · simp [show x.toNat < z.toNat by omega]
        · by_cases h1b : y.toNat < x.toNat
          · simp [h1, h1b] at hab
          · simp only [if_neg h1, if_neg h1b] at hab
            by_cases h2 : y.toNat < z.toNat
            · simp [show x.toNat < z.toNat by omega]
            · by_cases h3 : z.toNat < y.toNat
              · simp [h2, h3] at hbc
              · simp only [if_neg h2, if_neg h3] at hbc
                have hx : ¬x.toNat < z.toNat := by omega
                have hz : ¬z.toNat < x.toNat := by omega
                simp only [if_neg hx, if_neg hz]
                exact ih ys zs hab hbc

lemma cmpChars_congr_right :
    ∀ a b : List Char, cmpChars a b = .eq → ∀ c, cmpChars c a = cmpChars c b := by
  intro a
  induction a with
  | nil =>
    intro b hab c
    cases b with
    | nil => rfl
    | cons y ys => exact absurd hab (by simp [cmpChars])
  | cons x xs ih =>
    intro b hab c
    cases b with
    | nil => exact absurd hab (by simp [cmpChars])
    | cons y ys =>
      simp only [cmpChars] at hab
      by_cases h1 : x.toNat < y.toNat
      · simp [h1] at hab
      · by_cases h2 : y.toNat < x.toNat
        · simp [h1, h2] at hab
        · simp only [if_neg h1, if_neg h2] at hab
          cases c with
          | nil => rfl
          | cons z zs =>
            have e : x.toNat = y.toNat := by omega
            simp only [cmpChars, e, ih ys hab zs]

lemma cmpChars_congr_left :
    ∀ a b : List Char, cmpChars a b = .eq → ∀ c, cmpChars a c = cmpChars b c := by
  intro a b hab c
  have h1 : cmpChars a c = (cmpChars c a).swap := cmpChars_swap c a
  rw [h1, cmpChars_congr_right a b hab c, ← cmpChars_swap c b]

lemma strLtB_asymm {a b : String} (h : strLtB a b = true) : strLtB b a = false := by
  simp only [strLtB, decide_eq_true_eq] at h
  simp only [strLtB, decide_eq_false_iff_not]
  rw [cmpChars_swap a.toList b.toList, h]
  decide

lemma strLtB_neg_trans {a b c : String}
    (hba : strLtB b a = false) (hcb : strLtB c b = false) : strLtB c a = false := by
  simp only [strLtB, decide_eq_false_iff_not] at hba hcb
  simp only [strLtB, decide_eq_false_iff_not]
  intro hca
  cases hb : cmpChars b.toList a.toList with
  | lt => exact hba hb
  | eq =>
    exact hcb (by rw [cmpChars_congr_right b.toList a.toList hb c.toList]; exact hca)
  | gt =>
    have hab : cmpChars a.toList b.toList = .lt := by
      have hswap := cmpChars_swap a.toList b.toList
      rw [hb] at hswap
      cases hab2 : cmpChars a.toList b.toList with
      | lt => rfl
      | eq => rw [hab2] at hswap; exact absurd hswap (by decide)
      | gt => rw [hab2] at hswap; exact absurd hswap (by decide)
    cases hcb2 : cmpChars c.toList b.toList with
    | lt => exact hcb hcb2
    | eq =>
      have hce := cmpChars_congr_left c.toList b.toList hcb2 a.toList
      rw [hce] at hca
      exact hba hca
    | gt => exact hcb (cmpChars_lt_trans c.toList a.toList b.toList hca hab)

lemma keyLeB_total (a b : Option String) : keyLeB a b = true ∨ keyLeB b a = true := by
  cases a with
  | none => exact Or.inl rfl
  | some sa =>
    cases b with
    | none => exact Or.inr rfl
    | some sb =>
      simp only [keyLeB, strLeB, Bool.not_eq_true']
      by_cases h : strLtB sb sa = true
      · exact Or.inr (by simp [strLtB_asymm h])
      · exact Or.inl (by simpa using h)

lemma keyLeB_trans {a b c : Option String}
    (hab : keyLeB a b = true) (hbc : keyLeB b c = true) : keyLeB a c = true := by
  cases a with
  | none => rfl
  | some sa =>
    cases b with
    | none => exact Bool.noConfusion hab
    | some sb =>
      cases c with
      | none => exact Bool.noConfusion hbc
      | some sc =>
        simp only [keyLeB, strLeB, Bool.not_eq_true'] at hab hbc ⊢
        exact strLtB_neg_trans hab hbc

instance : IsTotal HistRow histLe :=
  ⟨fun a b => keyLeB_total a.time_indicator b.time_indicator⟩

instance : IsTrans HistRow histLe :=
  ⟨fun _ _ _ hab hbc => keyLeB_trans hab hbc⟩

instance : IsTotal HistRow histGe :=
  ⟨fun a b => keyLeB_total b.time_indicator a.time_indicator⟩

instance : IsTrans HistRow histGe :=
  ⟨fun _ _ _ hab hbc => keyLeB_trans hbc hab⟩

/-- Claim C3 (history ordering): `getHistory` output is always ascending by
`time_indicator`; with a range filter every returned row matches the filter,
and when the matching rows fit in the limit they are all returned; with no
range it returns exactly `min limit count` rows — the most recent ones, in
the sense that every matching row left out is at or below every returned row
in time order — still ascending, and all for the requested vehicle. -/
theorem history_ordering (db : Db) (vid : JNum) (sinceIso untilIso : Option String)
    (limit : Nat) :
    (getHistory db vid sinceIso untilIso limit).Pairwise histLe ∧
    ((sinceIso.isSome || untilIso.isSome) = true →
      (∀ r ∈ getHistory db vid sinceIso untilIso limit,
        rangeFilterB vid sinceIso untilIso r = true) ∧
      ((db.history.filter (rangeFilterB vid sinceIso untilIso)).length ≤ limit →
        (getHistory db vid sinceIso untilIso limit).Perm
          (db.history.filter (rangeFilterB vid sinceIso untilIso)))) ∧
    (sinceIso = none → untilIso = none →
      (getHistory db vid sinceIso untilIso limit).length =
        min limit (db.history.filter (fun r => decide (r.vehicleid = vid))).length ∧
      (∀ r ∈ db.history.filter (fun r => decide (r.vehicleid = vid)),
        r ∉ getHistory db vid sinceIso untilIso limit →
        ∀ r2 ∈ getHistory db vid sinceIso untilIso limit, histLe r r2) ∧
      (∀ r ∈ getHistory db vid sinceIso untilIso limit, r.vehicleid = vid)) := by
  refine ⟨?_, fun hc => ⟨?_, ?_⟩, fun hs hu => ⟨?_, ?_, ?_⟩⟩
  · by_cases hc : (sinceIso.isSome || untilIso.isSome) = true
    · rw [getHistory, if_pos hc]
      exact ((List.sorted_insertionSort histLe _).sublist (List.take_sublist _ _))
    · rw [getHistory, if_neg hc]
      rw [List.pairwise_reverse]
      exact ((List.sorted_insertionSort histGe _).sublist (List.take_sublist _ _))
  · intro r hr
    rw [getHistory, if_pos hc] at hr
    have hr2 := List.mem_of_mem_take hr
    rw [List.mem_insertionSort] at hr2
    exact (List.mem_filter.1 hr2).2
  · intro hlen
    rw [getHistory, if_pos hc]
    rw [List.take_of_length_le (by rw [List.length_insertionSort]; exact hlen)]
    exact List.perm_insertionSort histLe _
  · subst hs; subst hu
    rw [getHistory]
    simp only [Option.isSome_none, Bool.or_self, Bool.false_eq_true, if_false]
    rw [List.length_reverse, List.length_take, List.length_insertionSort]
  · subst hs; subst hu
    intro r hr hnot r2 hr2
    rw [getHistory] at hnot hr2
    simp only [Option.isSome_none, Bool.or_self, Bool.false_eq_true, if_false] at hnot hr2
    rw [List.mem_reverse] at hnot hr2
    have hsorted : ((db.history.filter
        (fun r => decide (r.vehicleid = vid))).insertionSort histGe).Pairwise histGe :=
      List.sorted_insertionSort histGe _
    have hsplit := List.take_append_drop limit
      ((db.history.filter (fun r => decide (r.vehicleid = vid))).insertionSort histGe)
    rw [← hsplit] at hsorted
    have hparts := List.pairwise_append.1 hsorted
    have hrmem : r ∈ ((db.history.filter
        (fun r => decide (r.vehicleid = vid))).insertionSort histGe) := by
      rw [List.mem_insertionSort]
      exact hr
    rw [← hsplit, List.mem_append] at hrmem
    have hrdrop : r ∈ ((db.history.filter
        (fun r => decide (r.vehicleid = vid))).insertionSort histGe).drop limit := by
      cases hrmem with
      | inl h => exact absurd h hnot
      | inr h => exact h
    exact hparts.2.2 r2 hr2 r hrdrop
  · subst hs; subst hu
    intro r hr
    rw [getHistory] at hr
    simp only [Option.isSome_none, Bool.or_self, Bool.false_eq_true, if_false] at hr
    rw [List.mem_reverse] at hr
    have hr2 := List.mem_of_mem_take hr
    rw [List.mem_insertionSort] at hr2
    simpa using (List.mem_filter.1 hr2).2

/-- Witness for C3: on a concrete three-row table with no range filter and
limit 2, the theorem gives the min-length equation for the returned page. -/
theorem history_ordering_witness :
    (getHistory
        ⟨[], [⟨.fin 1, none, none, none, none, some ("2024-01-01T00:00:00.000Z"), none, none,
          none, none, none, none, none, "u"⟩,
          ⟨.fin 1, none, none, none, none, some ("2024-01-03T00:00:00.000Z"), none, none,
            none, none, none, none, none, "u"⟩,
          ⟨.fin 1, none, none, none, none, some ("2024-01-02T00:00:00.000Z"), none, none,
            none, none, none, none, none, "u"⟩]⟩
        (.fin 1) none none 2).length =
      min 2 (((⟨[], [⟨.fin 1, none, none, none, none, some ("2024-01-01T00:00:00.000Z"), none,
          none, none, none, none, none, none, "u"⟩,
          ⟨.fin 1, none, none, none, none, some ("2024-01-03T00:00:00.000Z"), none, none,
            none, none, none, none, none, "u"⟩,
          ⟨.fin 1, none, none, none, none, some ("2024-01-02T00:00:00.000Z"), none, none,
            none, none, none, none, none, "u"⟩]⟩ : Db)).history.filter
        (fun r => decide (r.vehicleid = .fin 1))).length :=
  ((history_ordering
    ⟨[], [⟨.fin 1, none, none, none, none, some ("2024-01-01T00:00:00.000Z"), none, none,
      none, none, none, none, none, "u"⟩,
      ⟨.fin 1, none, none, none, none, some ("2024-01-03T00:00:00.000Z"), none, none,
        none, none, none, none, none, "u"⟩,
      ⟨.fin 1, none, none, none, none, some ("2024-01-02T00:00:00.000Z"), none, none,
        none, none, none, none, none, "u"⟩]⟩
    (.fin 1) none none 2).2.2 rfl rfl).1

/-! ### Speed-alert debounce (claim C1) -/

/-- The emission times of the alerts for one vehicle key, in emission order. -/
def alertTimes (k : VKey) (al : List Alert) : List Nat :=
  (al.filter (fun a => decide (a.vehicleId = k))).map Alert.time

/-- A time list whose entries are pairwise separated by more than the
cooldown. -/
def Gapped (l : List Nat) : Prop :=
  l.Pairwise (fun a b => a + SPEED_ALERT_COOLDOWN < b)

/-- The debounce invariant tying the `recentSpeedAlerts` map to the alerts
emitted so far, at wall-clock instant `now`: per vehicle the alert times are
gapped and bounded by `now`; a live map entry is the (maximal) time of the
vehicle's last alert; an absent entry means every past alert is older than
twice the cooldown. -/
def RecentInv (al : List Alert) (recent : VKey → Option Nat) (now : Nat) : Prop :=
  ∀ k : VKey,
    Gapped (alertTimes k al) ∧
    (∀ t ∈ alertTimes k al, t ≤ now) ∧
    (∀ t, recent k = some t → t ∈ alertTimes k al ∧ ∀ u ∈ alertTimes k al, u ≤ t) ∧
    (recent k = none → ∀ u ∈ alertTimes k al, u + 2 * SPEED_ALERT_COOLDOWN < now)

lemma alertTimes_append (k : VKey) (al1 al2 : List Alert) :
    alertTimes k (al1 ++ al2) = alertTimes k al1 ++ alertTimes k al2 := by
  simp [alertTimes]

lemma RecentInv.mono {al : List Alert} {recent : VKey → Option Nat} {now now' : Nat}
    (h : RecentInv al recent now) (hle : now ≤ now') : RecentInv al recent now' := by
  intro k
  obtain ⟨h1, h2, h3, h4⟩ := h k
  exact ⟨h1, fun t ht => le_trans (h2 t ht) hle, h3,
    fun hn u hu => lt_of_lt_of_le (h4 hn u hu) hle⟩

lemma fire_preserves (now : Nat) (a : Alert) (recent : VKey → Option Nat) (al : List Alert)
    (ha : a.time = now) (h : RecentInv al recent now)
    (hgap : ∀ u ∈ alertTimes a.vehicleId al, u + SPEED_ALERT_COOLDOWN < now) :
    RecentInv (al ++ [a]) (fun k => if k = a.vehicleId then some now else recent k) now := by
  intro k
  obtain ⟨h1, h2, h3, h4⟩ := h k
  by_cases hk : k = a.vehicleId
  · have hd : (decide (a.vehicleId = k)) = true := decide_eq_true hk.symm
    have htimes : alertTimes k (al ++ [a]) = alertTimes k al ++ [now] := by
      rw [alertTimes_append]
      simp [alertTimes, hd, ha]
    refine ⟨?_, ?_, ?_, ?_⟩
    · rw [htimes]
      rw [Gapped, List.pairwise_append]
      refine ⟨h1, by simp, ?_⟩
      intro x hx b hb
      rw [List.mem_singleton] at hb
      subst hb
      exact hgap x (hk ▸ hx)
    · rw [htimes]
      intro t ht
      rw [List.mem_append] at ht
      cases ht with
      | inl h' => exact h2 t h'
      | inr h' =>
        rw [List.mem_singleton] at h'
        omega
    · intro t ht
      simp only [if_pos hk] at ht
      cases ht
      rw [htimes]
      refine ⟨List.mem_append_right _ (List.mem_singleton.2 rfl), ?_⟩
      intro u hu
      rw [List.mem_append] at hu
      cases hu with
      | inl h' =>
        have := hgap u (hk ▸ h')
        omega
      | inr h' =>
        rw [List.mem_singleton] at h'
        omega
    · intro hn
      simp only [if_pos hk] at hn
      exact Option.noConfusion hn
  · have hd : (decide (a.vehicleId = k)) = false := decide_eq_false (fun hc => hk hc.symm)
    have htimes : alertTimes k (al ++ [a]) = alertTimes k al := by
      rw [alertTimes_append]
      have : alertTimes k [a] = [] := by simp [alertTimes, hd]
      rw [this, List.append_nil]
    refine ⟨htimes ▸ h1, htimes ▸ h2, ?_, ?_⟩
    · intro t ht
      simp only [if_neg hk] at ht
      rw [htimes]
      exact h3 t ht
    · intro hn
      simp only [if_neg hk] at hn
      rw [htimes]
      exact h4 hn

lemma alertStep_inv (now : Nat) (tracker : VKey → Option MaxEntry) (al0 : List Alert)
    (st : (VKey → Option Nat) × List Alert) (v : NormVehicle)
    (h : RecentInv (al0 ++ st.2) st.1 now) :
    RecentInv (al0 ++ (alertStep now tracker st v).2) (alertStep now tracker st v).1 now := by
  unfold alertStep
  by_cases hv : jsGeR (v.velocity.getD (.fin 0)) SPEED_LIMIT = true
  · simp only [hv, if_true]
    cases hrec : st.1 v.vehicleid with
    | none =>
      simp only [hrec, if_true]
      rw [← List.append_assoc]
      refine fire_preserves now _ st.1 (al0 ++ st.2) rfl h ?_
      intro u hu
      have h4 := (h v.vehicleid).2.2.2 hrec u hu
      omega
    | some t =>
      simp only [hrec]
      by_cases hcool : (SPEED_ALERT_COOLDOWN < now - t)
      · simp only [decide_eq_true hcool, if_true]
        rw [← List.append_assoc]
        refine fire_preserves now _ st.1 (al0 ++ st.2) rfl h ?_
        intro u hu
        obtain ⟨hmem, hmax⟩ := (h v.vehicleid).2.2.1 t hrec
        have hu2 := hmax u hu
        omega
      · simp only [decide_eq_false hcool, Bool.false_eq_true, if_false]
        exact h
  · simp only [if_neg hv]
    exact h

lemma alertFold_inv (now : Nat) (tracker : VKey → Option MaxEntry)
    (vs : List NormVehicle) :
    ∀ (st : (VKey → Option Nat) × List Alert) (al0 : List Alert),
      RecentInv (al0 ++ st.2) st.1 now →
      RecentInv (al0 ++ (vs.foldl (alertStep now tracker) st).2)
        (vs.foldl (alertStep now tracker) st).1 now := by
  induction vs with
  | nil => intro st al0 h; exact h
  | cons v rest ih =>
    intro st al0 h
    exact ih _ al0 (alertStep_inv now tracker al0 st v h)

lemma sweep_inv (now : Nat) (recent : VKey → Option Nat) (al : List Alert)
    (h : RecentInv al recent now) : RecentInv al (sweepRecent now recent) now := by
  intro k
  obtain ⟨h1, h2, h3, h4⟩ := h k
  refine ⟨h1, h2, ?_, ?_⟩
  · intro t ht
    unfold sweepRecent at ht
    cases hr : recent k with
    | none =>
      simp only [hr] at ht
      exact Option.noConfusion ht
    | some t0 =>
      simp only [hr] at ht
      by_cases he : 2 * SPEED_ALERT_COOLDOWN < now - t0
      · rw [if_pos he] at ht
        exact Option.noConfusion ht
      · rw [if_neg he] at ht
        cases ht
        exact h3 _ hr
  · intro hn u hu
    unfold sweepRecent at hn
    cases hr : recent k with
    | none => exact h4 hr u hu
    | some t0 =>
      simp only [hr] at hn
      by_cases he : 2 * SPEED_ALERT_COOLDOWN < now - t0
      · obtain ⟨hmem, hmax⟩ := h3 t0 hr
        have hu2 := hmax u hu
        have ht0 := h2 t0 hmem
        omega
      · rw [if_neg he] at hn
        exact Option.noConfusion hn

lemma checkSpeed_inv (now : Nat) (vs : List NormVehicle) (st : SpeedState) (al0 : List Alert)
    (h : RecentInv al0 st.recent now) :
    RecentInv (al0 ++ (checkSpeedViolations now vs st).2)
      (checkSpeedViolations now vs st).1.recent now := by
  have hf := alertFold_inv now (trackerPass now vs st.tracker) vs (st.recent, []) al0
    (by simpa using h)
  exact sweep_inv now _ _ hf

lemma runPolls_inv :
    ∀ (polls : List (Nat × List NormVehicle)) (st : SpeedState) (al0 : List Alert) (now0 : Nat),
      RecentInv al0 st.recent now0 →
      List.Chain (· ≤ ·) now0 (polls.map Prod.fst) →
      ∃ now1, RecentInv (al0 ++ (runPolls polls st).2) (runPolls polls st).1.recent now1 := by
  intro polls
  induction polls with
  | nil =>
    intro st al0 now0 h _
    exact ⟨now0, by simpa [runPolls] using h⟩
  | cons p rest ih =>
    obtain ⟨t, vs⟩ := p
    intro st al0 now0 h hchain
    rw [List.map_cons] at hchain
    cases hchain with
    | cons hle hchain2 =>
      have h1 := h.mono hle
      have h2 := checkSpeed_inv t vs st al0 h1
      obtain ⟨now1, h3⟩ := ih (checkSpeedViolations t vs st).1
        (al0 ++ (checkSpeedViolations t vs st).2) t h2 hchain2
      refine ⟨now1, ?_⟩
      have hrun : runPolls ((t, vs) :: rest) st =
          ((runPolls rest (checkSpeedViolations t vs st).1).1,
            (checkSpeedViolations t vs st).2 ++
              (runPolls rest (checkSpeedViolations t vs st).1).2) := rfl
      rw [hrun]
      rw [List.append_assoc] at h3
      exact h3

/-- The vehicle of the claimed three-poll scenario, reading 100 km/h. -/
def speedVehicle : NormVehicle :=
  ⟨some (.fin 10), some ("34AB123"), none, none, none, some (.fin 100), none, none, none,
    none, none, none, none, none, none, none, none, none, none⟩

lemma scenario_chain :
    (([(0, [speedVehicle]), (60000, [speedVehicle]),
        (360000, [speedVehicle])]).map Prod.fst).Chain' (· ≤ ·) := by
  simp only [List.map_cons, List.map_nil]
  exact List.Chain'.cons (by norm_num)
    (List.Chain'.cons (by norm_num) (List.chain'_singleton _))

/-- Claim C1 (speed-alert debounce): across any chronologically ordered
sequence of polls starting from the fresh alert state, the alerts emitted for
any one vehicle are pairwise separated by more than the 5-minute cooldown (so
no two alerts for a vehicle are ever less than 5 minutes apart, and an alert
fires only when no prior alert lies within the cooldown window); moreover the
claimed scenario — polls at 0, 1 and 6 minutes all reading 100 km/h — emits
exactly two alerts, at 0 and at 6 minutes. -/
theorem speed_alert_debounce (polls : List (Nat × List NormVehicle))
    (hmono : (polls.map Prod.fst).Chain' (· ≤ ·)) :
    (∀ k : VKey, Gapped (alertTimes k (runPolls polls initSpeedState).2)) ∧
    ((runPolls [(0, [speedVehicle]), (60000, [speedVehicle]), (360000, [speedVehicle])]
        initSpeedState).2.map (fun a => (a.vehicleId, a.time)) =
      [(some (.fin 10), 0), (some (.fin 10), 360000)]) := by
  constructor
  · have hchain : List.Chain (· ≤ ·) 0 (polls.map Prod.fst) := by
      cases hp : polls.map Prod.fst with
      | nil => exact List.Chain.nil
      | cons t ts =>
        rw [hp] at hmono
        exact List.Chain.cons (Nat.zero_le t) hmono
    have hinit : RecentInv [] initSpeedState.recent 0 := by
      intro k
      refine ⟨List.Pairwise.nil, ?_, ?_, ?_⟩
      · intro t ht
        simp [alertTimes] at ht
      · intro t ht
        exact Option.noConfusion ht
      · intro _ u hu
        simp [alertTimes] at hu
    obtain ⟨now1, hfin⟩ := runPolls_inv polls initSpeedState [] 0 hinit hchain
    rw [List.nil_append] at hfin
    intro k
    exact (hfin k).1
  · decide

/-- Witness for C1: the three-poll scenario is chronological, and the
theorem yields the gapped (more-than-cooldown-apart) alert times for the
scenario's vehicle. -/
theorem speed_alert_debounce_witness :
    ([(0, [speedVehicle]), (60000, [speedVehicle]),
        (360000, [speedVehicle])].map Prod.fst).Chain' (· ≤ ·) ∧
    Gapped (alertTimes (some (.fin 10))
      (runPolls [(0, [speedVehicle]), (60000, [speedVehicle]), (360000, [speedVehicle])]
        initSpeedState).2) :=
  ⟨scenario_chain,
    (speed_alert_debounce
      [(0, [speedVehicle]), (60000, [speedVehicle]), (360000, [speedVehicle])]
      scenario_chain).1 (some (.fin 10))⟩

end Bgps
